import Mathlib

/-!
Verification of the burnout scoring engine (`burnout_engine.py`).

The engine is embedded shallowly over ℚ: Python floats become rationals,
`round(x, d)` becomes round-to-nearest with ties to even (`rqi` / `roundTo`),
dicts become association lists in insertion order, and the external
collaborators (the TextBlob sentiment model and the datetime parser) become
an explicit environment `Env` the engine functions are parameterized by.
-/

/-- Floor of a rational, in the executable `num / den` form. -/
def qfloor (x : ℚ) : ℤ := x.num / x.den

theorem qfloor_eq (x : ℚ) : qfloor x = ⌊x⌋ := Rat.floor_def.symm

/-- Round a rational to the nearest integer, ties to even — the rounding mode
of Python's built-in `round`. -/
def rqi (x : ℚ) : ℤ :=
  if x - (qfloor x : ℚ) < 1/2 then qfloor x
  else if 1/2 < x - (qfloor x : ℚ) then qfloor x + 1
  else if qfloor x % 2 = 0 then qfloor x else qfloor x + 1

/-- Python's `round(x, d)` over ℚ. -/
def roundTo (d : ℕ) (x : ℚ) : ℚ := (rqi (x * (10:ℚ)^d) : ℚ) / (10:ℚ)^d

theorem rqi_ge (x : ℚ) : x - 1/2 ≤ (rqi x : ℚ) := by
  unfold rqi
  simp only [qfloor_eq]
  have h0 : (⌊x⌋ : ℚ) ≤ x := Int.floor_le x
  have h1 : x < (⌊x⌋ : ℚ) + 1 := Int.lt_floor_add_one x
  split_ifs with ha hb hc <;> push_cast <;> linarith

theorem rqi_le (x : ℚ) : (rqi x : ℚ) ≤ x + 1/2 := by
  unfold rqi
  simp only [qfloor_eq]
  have h0 : (⌊x⌋ : ℚ) ≤ x := Int.floor_le x
  have h1 : x < (⌊x⌋ : ℚ) + 1 := Int.lt_floor_add_one x
  split_ifs with ha hb hc <;> push_cast <;> linarith

theorem rqi_intCast (n : ℤ) : rqi (n : ℚ) = n := by
  unfold rqi
  simp [qfloor_eq, Int.floor_intCast]

theorem le_rqi_of_cast_le {n : ℤ} {x : ℚ} (h : (n : ℚ) ≤ x) : n ≤ rqi x := by
  have h1 := rqi_ge x
  have h2 : (n : ℚ) - 1 < (rqi x : ℚ) := by linarith
  have h3 : (n : ℤ) - 1 < rqi x := by exact_mod_cast h2
  omega

theorem rqi_le_of_le_cast {n : ℤ} {x : ℚ} (h : x ≤ (n : ℚ)) : rqi x ≤ n := by
  have h1 := rqi_le x
  have h2 : (rqi x : ℚ) < (n : ℚ) + 1 := by linarith
  have h3 : rqi x < n + 1 := by exact_mod_cast h2
  omega

theorem floor_le_rqi (x : ℚ) : ⌊x⌋ ≤ rqi x := by
  unfold rqi
  simp only [qfloor_eq]
  split_ifs <;> omega

theorem rqi_le_floor_add_one (x : ℚ) : rqi x ≤ ⌊x⌋ + 1 := by
  unfold rqi
  simp only [qfloor_eq]
  split_ifs <;> omega

theorem rqi_mono {x y : ℚ} (h : x ≤ y) : rqi x ≤ rqi y := by
  have hf : ⌊x⌋ ≤ ⌊y⌋ := Int.floor_le_floor h
  rcases lt_or_eq_of_le hf with hlt | heq
  · have h1 := rqi_le_floor_add_one x
    have h2 := floor_le_rqi y
    omega
  · have hr : x - (⌊x⌋ : ℚ) ≤ y - (⌊y⌋ : ℚ) := by
      rw [← heq]; linarith
    unfold rqi
    simp only [qfloor_eq]
    rw [← heq] at hr ⊢
    split_ifs <;> first | omega | linarith

theorem roundTo_mono (d : ℕ) {x y : ℚ} (h : x ≤ y) : roundTo d x ≤ roundTo d y := by
  unfold roundTo
  have hp : (0:ℚ) < (10:ℚ)^d := by positivity
  have hm : x * (10:ℚ)^d ≤ y * (10:ℚ)^d := by
    exact mul_le_mul_of_nonneg_right h (le_of_lt hp)
  have hc : ((rqi (x * (10:ℚ)^d)) : ℚ) ≤ ((rqi (y * (10:ℚ)^d)) : ℚ) := by
    exact_mod_cast rqi_mono hm
  gcongr

-- ─────────────────────────────────────────────────────────────────────────────
-- Thresholds and weights (module-level constants of burnout_engine.py)
-- ─────────────────────────────────────────────────────────────────────────────

/-- The `WEIGHTS` dict of the source. -/
def WEIGHTS (k : String) : ℚ :=
  if k = "assessment" then 0.75
  else if k = "sentiment" then 0.10
  else if k = "work_pattern" then 0.10
  else if k = "productivity" then 0.05
  else 0

/-- The `RISK_THRESHOLDS` dict of the source. -/
def RISK_THRESHOLDS (k : String) : ℚ :=
  if k = "low" then 35
  else if k = "moderate" then 55
  else if k = "high" then 75
  else if k = "critical" then 90
  else 0

theorem RISK_THRESHOLDS_low : RISK_THRESHOLDS "low" = 35 := rfl

theorem RISK_THRESHOLDS_moderate : RISK_THRESHOLDS "moderate" = 55 := rfl

theorem RISK_THRESHOLDS_high : RISK_THRESHOLDS "high" = 75 := rfl

theorem RISK_THRESHOLDS_critical : RISK_THRESHOLDS "critical" = 90 := rfl

/-- `_get_risk_level`: checks `critical`, `high`, `moderate` thresholds from the
top; anything below the `moderate` threshold falls through to `"low"`. -/
def _get_risk_level (score : ℚ) : String :=
  if RISK_THRESHOLDS "critical" ≤ score then "critical"
  else if RISK_THRESHOLDS "high" ≤ score then "high"
  else if RISK_THRESHOLDS "moderate" ≤ score then "moderate"
  else "low"

/-- Claim C1, counterexample: the claim says 35.0 maps to "moderate" and 55.0
to "high", but `_get_risk_level` returns "low" at 35 and "moderate" at 55
(the `low = 35` threshold is never consulted). -/
theorem c1_risk_tiers_counterexample :
    _get_risk_level 35 = "low" ∧ _get_risk_level 35 ≠ "moderate" ∧
    _get_risk_level 55 = "moderate" ∧ _get_risk_level 55 ≠ "high" := by
  refine ⟨?_, ?_, ?_, ?_⟩ <;>
    simp only [_get_risk_level, RISK_THRESHOLDS_low, RISK_THRESHOLDS_moderate,
      RISK_THRESHOLDS_high, RISK_THRESHOLDS_critical] <;>
    norm_num <;> decide

/-- Claim C1 (amended): the tiers actually implemented are
"low" for x < 55, "moderate" for 55 ≤ x < 75, "high" for 75 ≤ x < 90, and
"critical" for x ≥ 90. -/
theorem c1_risk_tiers (x : ℚ) :
    (x < 55 → _get_risk_level x = "low") ∧
    (55 ≤ x → x < 75 → _get_risk_level x = "moderate") ∧
    (75 ≤ x → x < 90 → _get_risk_level x = "high") ∧
    (90 ≤ x → _get_risk_level x = "critical") := by
  simp only [_get_risk_level, RISK_THRESHOLDS_low, RISK_THRESHOLDS_moderate,
    RISK_THRESHOLDS_high, RISK_THRESHOLDS_critical]
  refine ⟨?_, ?_, ?_, ?_⟩ <;> intros <;> split_ifs <;> first | rfl | linarith

/-- Claim C1 witness: the amended tier map evaluated at the boundary scores. -/
theorem c1_risk_tiers_w :
    _get_risk_level 34.9 = "low" ∧ _get_risk_level 35 = "low" ∧
    _get_risk_level 54.9 = "low" ∧ _get_risk_level 55 = "moderate" ∧
    _get_risk_level 74.9 = "moderate" ∧ _get_risk_level 75 = "high" ∧
    _get_risk_level 89.9 = "high" ∧ _get_risk_level 90 = "critical" :=
  ⟨(c1_risk_tiers _).1 (by norm_num), (c1_risk_tiers _).1 (by norm_num),
   (c1_risk_tiers _).1 (by norm_num), (c1_risk_tiers _).2.1 (by norm_num) (by norm_num),
   (c1_risk_tiers _).2.1 (by norm_num) (by norm_num),
   (c1_risk_tiers _).2.2.1 (by norm_num) (by norm_num),
   (c1_risk_tiers _).2.2.1 (by norm_num) (by norm_num),
   (c1_risk_tiers _).2.2.2 (by norm_num)⟩

-- ─────────────────────────────────────────────────────────────────────────────
-- Rounding range lemmas
-- ─────────────────────────────────────────────────────────────────────────────

theorem roundTo_ge_intCast {n : ℤ} (d : ℕ) {x : ℚ} (h : (n : ℚ) ≤ x) :
    (n : ℚ) ≤ roundTo d x := by
  unfold roundTo
  have hp : (0:ℚ) < (10:ℚ)^d := by positivity
  have h1 : ((n * 10^d : ℤ) : ℚ) ≤ x * (10:ℚ)^d := by
    push_cast
    exact mul_le_mul_of_nonneg_right h hp.le
  have h2 : (n * 10^d : ℤ) ≤ rqi (x * (10:ℚ)^d) := le_rqi_of_cast_le h1
  rw [le_div_iff₀ hp]
  calc (n:ℚ) * (10:ℚ)^d = ((n * 10^d : ℤ) : ℚ) := by push_cast; ring
  _ ≤ (rqi (x * (10:ℚ)^d) : ℚ) := by exact_mod_cast h2

theorem roundTo_le_intCast {n : ℤ} (d : ℕ) {x : ℚ} (h : x ≤ (n : ℚ)) :
    roundTo d x ≤ (n : ℚ) := by
  unfold roundTo
  have hp : (0:ℚ) < (10:ℚ)^d := by positivity
  have h1 : x * (10:ℚ)^d ≤ ((n * 10^d : ℤ) : ℚ) := by
    push_cast
    exact mul_le_mul_of_nonneg_right h hp.le
  have h2 : rqi (x * (10:ℚ)^d) ≤ (n * 10^d : ℤ) := rqi_le_of_le_cast h1
  rw [div_le_iff₀ hp]
  calc (rqi (x * (10:ℚ)^d) : ℚ) ≤ ((n * 10^d : ℤ) : ℚ) := by exact_mod_cast h2
  _ = (n:ℚ) * (10:ℚ)^d := by push_cast; ring

/-- `roundTo` is the identity on exact `d`-decimal values. -/
theorem roundTo_eq_self_of_mul_int (d : ℕ) (x : ℚ) (m : ℤ) (hm : x * (10:ℚ)^d = (m : ℚ)) :
    roundTo d x = x := by
  unfold roundTo
  rw [hm, rqi_intCast, ← hm]
  have hp : ((10:ℚ)^d) ≠ 0 := by positivity
  exact mul_div_cancel_right₀ x hp

-- ─────────────────────────────────────────────────────────────────────────────
-- Assessment score (`compute_assessment_score`)
-- ─────────────────────────────────────────────────────────────────────────────

/-- A question of the fixed catalog (`{id, category, text}`; the text plays no
role in scoring). -/
structure Question where
  id : String
  category : String
deriving DecidableEq

/-- Lookup in a Python dict modelled as an association list in insertion
order. -/
def lookupAns : List (String × ℤ) → String → Option ℤ
  | [], _ => none
  | (k, v) :: rest, q => if k = q then some v else lookupAns rest q

/-- One iteration of the `for q in ASSESSMENT_QUESTIONS` loop of
`compute_assessment_score`: accumulates `(weighted_total, total_weight)`. -/
def assessmentStep (answers : List (String × ℤ)) (acc : ℚ × ℚ) (q : Question) : ℚ × ℚ :=
  match lookupAns answers q.id with
  | none => acc
  | some score =>
    if q.category = "personal_accomplishment" ∨ q.category = "support" then
      (acc.1 + ((6 - score : ℤ) : ℚ) * 1, acc.2 + 1)
    else
      (acc.1 + (score : ℚ) * 3, acc.2 + 3)

/-- `(weighted_total, total_weight)` after the loop. -/
def assessmentSums (catalog : List Question) (answers : List (String × ℤ)) : ℚ × ℚ :=
  catalog.foldl (assessmentStep answers) (0, 0)

/-- `compute_assessment_score`, parameterized by the question catalog
(`ASSESSMENT_QUESTIONS` is data imported from `mock_data.py`, which is not part
of the engine source; every theorem below quantifies over the catalog). -/
def compute_assessment_score (catalog : List Question) (answers : List (String × ℤ)) : ℚ :=
  if answers = [] then 0
  else if (assessmentSums catalog answers).2 = 0 then 0
  else roundTo 1 ((((assessmentSums catalog answers).1 / (assessmentSums catalog answers).2 - 1) / 4) * 100)

theorem lookupAns_mem {l : List (String × ℤ)} {k : String} {v : ℤ}
    (h : lookupAns l k = some v) : ∃ p ∈ l, p.2 = v := by
  induction l with
  | nil => simp [lookupAns] at h
  | cons a rest ih =>
    rcases a with ⟨ak, av⟩
    by_cases hk : ak = k
    · subst hk
      simp [lookupAns] at h
      exact ⟨(ak, av), by simp, h⟩
    · simp [lookupAns, hk] at h
      obtain ⟨p, hp, hv⟩ := ih h
      exact ⟨p, by simp [hp], hv⟩

theorem lookupAns_eq_none {l : List (String × ℤ)} {k : String}
    (h : ∀ p ∈ l, p.1 ≠ k) : lookupAns l k = none := by
  induction l with
  | nil => rfl
  | cons a rest ih =>
    have ha : a.1 ≠ k := h a (by simp)
    simp only [lookupAns]
    rw [if_neg ha]
    exact ih (fun p hp => h p (by simp [hp]))

theorem assessmentSums_invariant (answers : List (String × ℤ))
    (hv : ∀ p ∈ answers, 1 ≤ p.2 ∧ p.2 ≤ 5) :
    ∀ (catalog : List Question) (acc : ℚ × ℚ),
      0 ≤ acc.2 → acc.2 ≤ acc.1 → acc.1 ≤ 5 * acc.2 →
      0 ≤ (catalog.foldl (assessmentStep answers) acc).2 ∧
      (catalog.foldl (assessmentStep answers) acc).2 ≤ (catalog.foldl (assessmentStep answers) acc).1 ∧
      (catalog.foldl (assessmentStep answers) acc).1 ≤ 5 * (catalog.foldl (assessmentStep answers) acc).2 := by
  intro catalog
  induction catalog with
  | nil => intro acc h0 h1 h2; exact ⟨h0, h1, h2⟩
  | cons q rest ih =>
    intro acc h0 h1 h2
    rw [List.foldl_cons]
    apply ih
    all_goals {
      unfold assessmentStep
      rcases hl : lookupAns answers q.id with _ | v
      · simpa using by assumption
      · obtain ⟨p, hp, hpv⟩ := lookupAns_mem hl
        have hb := hv p hp
        rw [hpv] at hb
        have hb1 : (1:ℚ) ≤ (v:ℚ) := by exact_mod_cast hb.1
        have hb5 : (v:ℚ) ≤ 5 := by exact_mod_cast hb.2
        split_ifs <;> simp only [] <;> push_cast <;> linarith
    }

theorem assessmentStep_tw_mono (answers : List (String × ℤ)) (acc : ℚ × ℚ) (q : Question) :
    acc.2 ≤ (assessmentStep answers acc q).2 := by
  unfold assessmentStep
  rcases lookupAns answers q.id with _ | v
  · simp
  · split_ifs <;> simp

theorem foldl_assessmentStep_tw_mono (answers : List (String × ℤ)) :
    ∀ (catalog : List Question) (acc : ℚ × ℚ),
      acc.2 ≤ (catalog.foldl (assessmentStep answers) acc).2 := by
  intro catalog
  induction catalog with
  | nil => intro acc; simp
  | cons q rest ih =>
    intro acc
    rw [List.foldl_cons]
    exact le_trans (assessmentStep_tw_mono answers acc q) (ih _)

theorem assessmentStep_tw_add_one (answers : List (String × ℤ)) (acc : ℚ × ℚ) (q : Question)
    (h : (lookupAns answers q.id).isSome) :
    acc.2 + 1 ≤ (assessmentStep answers acc q).2 := by
  unfold assessmentStep
  rcases hl : lookupAns answers q.id with _ | v
  · rw [hl] at h; simp at h
  · split_ifs <;> simp

/-- In the all-max configuration (`5` on burnout categories, `1` on positive
ones, so every processed value is 5 after inversion) the loop keeps
`weighted_total = 5 * total_weight`. -/
theorem assessmentSums_max_ratio (answers : List (String × ℤ)) :
    ∀ (catalog : List Question) (acc : ℚ × ℚ),
      (∀ q ∈ catalog, lookupAns answers q.id =
        some (if q.category = "personal_accomplishment" ∨ q.category = "support" then 1 else 5)) →
      acc.1 = 5 * acc.2 →
      (catalog.foldl (assessmentStep answers) acc).1 = 5 * (catalog.foldl (assessmentStep answers) acc).2 := by
  intro catalog
  induction catalog with
  | nil => intro acc _ h; simpa using h
  | cons q rest ih =>
    intro acc hq h
    rw [List.foldl_cons]
    apply ih _ (fun p hp => hq p (by simp [hp]))
    have hself := hq q (by simp)
    unfold assessmentStep
    rw [hself]
    split_ifs with hc
    · simp only [if_pos hc]; push_cast; linarith
    · simp only [if_neg hc]; push_cast; linarith

/-- In the all-min configuration every processed value is 1 after inversion and
the loop keeps `weighted_total = total_weight`. -/
theorem assessmentSums_min_ratio (answers : List (String × ℤ)) :
    ∀ (catalog : List Question) (acc : ℚ × ℚ),
      (∀ q ∈ catalog, lookupAns answers q.id =
        some (if q.category = "personal_accomplishment" ∨ q.category = "support" then 5 else 1)) →
      acc.1 = acc.2 →
      (catalog.foldl (assessmentStep answers) acc).1 = (catalog.foldl (assessmentStep answers) acc).2 := by
  intro catalog
  induction catalog with
  | nil => intro acc _ h; simpa using h
  | cons q rest ih =>
    intro acc hq h
    rw [List.foldl_cons]
    apply ih _ (fun p hp => hq p (by simp [hp]))
    have hself := hq q (by simp)
    unfold assessmentStep
    rw [hself]
    split_ifs with hc
    · simp only [if_pos hc]; push_cast; linarith
    · simp only [if_neg hc]; push_cast; linarith

theorem assessmentSums_bounds (catalog : List Question) (answers : List (String × ℤ))
    (hv : ∀ p ∈ answers, 1 ≤ p.2 ∧ p.2 ≤ 5) :
    0 ≤ (assessmentSums catalog answers).2 ∧
    (assessmentSums catalog answers).2 ≤ (assessmentSums catalog answers).1 ∧
    (assessmentSums catalog answers).1 ≤ 5 * (assessmentSums catalog answers).2 := by
  unfold assessmentSums
  exact assessmentSums_invariant answers hv catalog (0, 0) (by norm_num) (by norm_num) (by norm_num)

theorem roundTo_nonneg (d : ℕ) {x : ℚ} (h : 0 ≤ x) : 0 ≤ roundTo d x := by
  have h' : ((0:ℤ) : ℚ) ≤ x := by exact_mod_cast h
  simpa using roundTo_ge_intCast d h'

theorem roundTo_le_hundred (d : ℕ) {x : ℚ} (h : x ≤ 100) : roundTo d x ≤ 100 := by
  have h' : x ≤ ((100:ℤ) : ℚ) := by exact_mod_cast h
  simpa using roundTo_le_intCast d h'

theorem compute_assessment_score_bounds (catalog : List Question) (answers : List (String × ℤ))
    (hv : ∀ p ∈ answers, 1 ≤ p.2 ∧ p.2 ≤ 5) :
    0 ≤ compute_assessment_score catalog answers ∧
    compute_assessment_score catalog answers ≤ 100 := by
  unfold compute_assessment_score
  split_ifs with h1 h2
  · norm_num
  · norm_num
  · obtain ⟨h0, hA, hB⟩ := assessmentSums_bounds catalog answers hv
    have htw : 0 < (assessmentSums catalog answers).2 := lt_of_le_of_ne h0 (Ne.symm h2)
    have hraw1 : 1 ≤ (assessmentSums catalog answers).1 / (assessmentSums catalog answers).2 := by
      rw [le_div_iff₀ htw]; linarith
    have hraw5 : (assessmentSums catalog answers).1 / (assessmentSums catalog answers).2 ≤ 5 := by
      rw [div_le_iff₀ htw]; linarith
    constructor
    · apply roundTo_nonneg
      nlinarith
    · apply roundTo_le_hundred
      nlinarith

theorem compute_assessment_score_max (catalog : List Question) (answers : List (String × ℤ))
    (hcat : catalog ≠ [])
    (hmax : ∀ q ∈ catalog, lookupAns answers q.id =
      some (if q.category = "personal_accomplishment" ∨ q.category = "support" then 1 else 5)) :
    compute_assessment_score catalog answers = 100 := by
  rcases catalog with _ | ⟨q0, rest⟩
  · exact absurd rfl hcat
  have hq0 := hmax q0 (by simp)
  have hansne : answers ≠ [] := by
    intro he
    rw [he] at hq0
    simp [lookupAns] at hq0
  have htw1 : (1:ℚ) ≤ (assessmentSums (q0 :: rest) answers).2 := by
    unfold assessmentSums
    rw [List.foldl_cons]
    have hsome : (lookupAns answers q0.id).isSome := by rw [hq0]; rfl
    have step1 := assessmentStep_tw_add_one answers (0, 0) q0 hsome
    have step2 := foldl_assessmentStep_tw_mono answers rest (assessmentStep answers (0, 0) q0)
    simp only [] at step1
    linarith
  have htwne : (assessmentSums (q0 :: rest) answers).2 ≠ 0 := by
    intro he; rw [he] at htw1; linarith
  have hratio : (assessmentSums (q0 :: rest) answers).1 = 5 * (assessmentSums (q0 :: rest) answers).2 := by
    unfold assessmentSums
    exact assessmentSums_max_ratio answers (q0 :: rest) (0, 0) hmax (by norm_num)
  unfold compute_assessment_score
  rw [if_neg hansne, if_neg htwne, hratio, mul_div_assoc, div_self htwne]
  have h100 : roundTo 1 (100:ℚ) = 100 := roundTo_eq_self_of_mul_int 1 100 1000 (by norm_num)
  norm_num [h100]

theorem compute_assessment_score_min (catalog : List Question) (answers : List (String × ℤ))
    (hcat : catalog ≠ [])
    (hmin : ∀ q ∈ catalog, lookupAns answers q.id =
      some (if q.category = "personal_accomplishment" ∨ q.category = "support" then 5 else 1)) :
    compute_assessment_score catalog answers = 0 := by
  rcases catalog with _ | ⟨q0, rest⟩
  · exact absurd rfl hcat
  have hq0 := hmin q0 (by simp)
  have hansne : answers ≠ [] := by
    intro he
    rw [he] at hq0
    simp [lookupAns] at hq0
  have htw1 : (1:ℚ) ≤ (assessmentSums (q0 :: rest) answers).2 := by
    unfold assessmentSums
    rw [List.foldl_cons]
    have hsome : (lookupAns answers q0.id).isSome := by rw [hq0]; rfl
    have step1 := assessmentStep_tw_add_one answers (0, 0) q0 hsome
    have step2 := foldl_assessmentStep_tw_mono answers rest (assessmentStep answers (0, 0) q0)
    simp only [] at step1
    linarith
  have htwne : (assessmentSums (q0 :: rest) answers).2 ≠ 0 := by
    intro he; rw [he] at htw1; linarith
  have hratio : (assessmentSums (q0 :: rest) answers).1 = (assessmentSums (q0 :: rest) answers).2 := by
    unfold assessmentSums
    exact assessmentSums_min_ratio answers (q0 :: rest) (0, 0) hmin (by norm_num)
  unfold compute_assessment_score
  rw [if_neg hansne, if_neg htwne, hratio, div_self htwne]
  have hz : roundTo 1 (0:ℚ) = 0 := roundTo_eq_self_of_mul_int 1 0 0 (by norm_num)
  norm_num [hz]

/-- Claim C4: for answer values in 1..5 the assessment score is in [0,100];
an empty answers map scores 0; an all-max configuration (5 on burnout
categories, 1 on the inverted positive categories) scores 100 on any
non-empty catalog, and the all-min configuration scores 0. -/
theorem c4_assessment_score_props (catalog : List Question) (answers : List (String × ℤ))
    (hv : ∀ p ∈ answers, 1 ≤ p.2 ∧ p.2 ≤ 5) :
    (0 ≤ compute_assessment_score catalog answers ∧
      compute_assessment_score catalog answers ≤ 100) ∧
    compute_assessment_score catalog [] = 0 ∧
    (catalog ≠ [] →
      (∀ q ∈ catalog, lookupAns answers q.id =
        some (if q.category = "personal_accomplishment" ∨ q.category = "support" then 1 else 5)) →
      compute_assessment_score catalog answers = 100) ∧
    (catalog ≠ [] →
      (∀ q ∈ catalog, lookupAns answers q.id =
        some (if q.category = "personal_accomplishment" ∨ q.category = "support" then 5 else 1)) →
      compute_assessment_score catalog answers = 0) :=
  ⟨compute_assessment_score_bounds catalog answers hv, rfl,
   compute_assessment_score_max catalog answers,
   compute_assessment_score_min catalog answers⟩

/-- Modelled from the spec: a sample of the fixed question catalog
`ASSESSMENT_QUESTIONS` (data supplied by `mock_data.py`, which is outside the
engine source); the categories are the ones the spec's data model names. -/
def sampleCatalog : List Question :=
  [⟨"q1", "exhaustion"⟩, ⟨"q2", "detachment"⟩, ⟨"q3", "physical"⟩,
   ⟨"q4", "personal_accomplishment"⟩, ⟨"q5", "support"⟩]

def sampleAnswersMax : List (String × ℤ) :=
  [("q1", 5), ("q2", 5), ("q3", 5), ("q4", 1), ("q5", 1)]

/-- Claim C4 witness: the bound and the all-max score evaluated on a concrete
catalog and answers map. -/
theorem c4_assessment_score_props_w :
    (0 ≤ compute_assessment_score sampleCatalog sampleAnswersMax ∧
      compute_assessment_score sampleCatalog sampleAnswersMax ≤ 100) ∧
    compute_assessment_score sampleCatalog sampleAnswersMax = 100 := by
  have h := c4_assessment_score_props sampleCatalog sampleAnswersMax (by decide)
  exact ⟨h.1, h.2.2.1 (by decide) (by decide)⟩

theorem assessmentSums_skip (answers : List (String × ℤ)) :
    ∀ (catalog : List Question) (acc : ℚ × ℚ),
      (∀ q ∈ catalog, lookupAns answers q.id = none) →
      catalog.foldl (assessmentStep answers) acc = acc := by
  intro catalog
  induction catalog with
  | nil => intro acc _; rfl
  | cons q rest ih =>
    intro acc hq
    rw [List.foldl_cons]
    have hstep : assessmentStep answers acc q = acc := by
      unfold assessmentStep
      rw [hq q (by simp)]
    rw [hstep]
    exact ih acc (fun p hp => hq p (by simp [hp]))

/-- Claim C10: a non-empty answers map none of whose keys occurs in the catalog
is silently ignored — the `total_weight == 0` guard returns 0. -/
theorem c10_unknown_answer_ids (catalog : List Question) (answers : List (String × ℤ))
    (hne : answers ≠ [])
    (hkeys : ∀ p ∈ answers, ∀ q ∈ catalog, p.1 ≠ q.id) :
    compute_assessment_score catalog answers = 0 := by
  have hnone : ∀ q ∈ catalog, lookupAns answers q.id = none :=
    fun q hq => lookupAns_eq_none (fun p hp => hkeys p hp q hq)
  have hz : assessmentSums catalog answers = (0, 0) := by
    unfold assessmentSums
    exact assessmentSums_skip answers catalog (0, 0) hnone
  unfold compute_assessment_score
  rw [if_neg hne, hz]
  norm_num

/-- Claim C10 witness: a concrete answers map with only an unknown key. -/
theorem c10_unknown_answer_ids_w :
    compute_assessment_score sampleCatalog [("zz", 3)] = 0 :=
  c10_unknown_answer_ids sampleCatalog [("zz", 3)] (by decide) (by decide)

-- ─────────────────────────────────────────────────────────────────────────────
-- Sentiment pipeline (`analyze_sentiment`, `analyze_messages`,
-- `_polarity_label`, `_compute_weekly_sentiment`)
-- ─────────────────────────────────────────────────────────────────────────────

/-- The engine's external collaborators: the TextBlob polarity/subjectivity
model and the `datetime.strptime` + `strftime("%Y-W%U")` week-key computation
(`none` models a `ValueError` on an unparseable timestamp). -/
structure Env where
  sentiment : String → ℚ × ℚ
  parseWeek : String → Option String

/-- A raw message record `{content, timestamp}`. -/
structure Msg where
  content : String
  timestamp : String
deriving DecidableEq

/-- A message after per-message analysis (`{**msg, polarity, subjectivity,
label}`). -/
structure AnalyzedMsg where
  content : String
  timestamp : String
  polarity : ℚ
  subjectivity : ℚ
  label : String
deriving DecidableEq

/-- `_polarity_label`. -/
def _polarity_label (p : ℚ) : String :=
  if (0.1 : ℚ) < p then "positive"
  else if p < (-0.1 : ℚ) then "negative"
  else "neutral"

/-- `analyze_sentiment`: polarity and subjectivity of one text, each rounded to
3 decimals. -/
def analyze_sentiment (env : Env) (text : String) : ℚ × ℚ :=
  (roundTo 3 (env.sentiment text).1, roundTo 3 (env.sentiment text).2)

/-- One entry of the `analyzed` list built by `analyze_messages`. -/
def analyzeOne (env : Env) (m : Msg) : AnalyzedMsg :=
  { content := m.content, timestamp := m.timestamp,
    polarity := (analyze_sentiment env m.content).1,
    subjectivity := (analyze_sentiment env m.content).2,
    label := _polarity_label (analyze_sentiment env m.content).1 }

/-- Insert after every element not strictly greater — the stable insertion used
to model Python's stable `list.sort`. -/
def insertOrd {α : Type} (lt : α → α → Bool) : List α → α → List α
  | [], m => [m]
  | x :: xs, m => if lt m x then m :: x :: xs else x :: insertOrd lt xs m

/-- Stable sort by repeated ordered insertion (equal keys keep their original
relative order, as Python's `sort` guarantees). -/
def stableSort {α : Type} (lt : α → α → Bool) (l : List α) : List α :=
  l.foldl (insertOrd lt) []

/-- Lexicographic code-point comparison of character lists — Python's `<` on
strings. -/
def charListLt : List Char → List Char → Bool
  | [], [] => false
  | [], _ :: _ => true
  | _ :: _, [] => false
  | a :: as, b :: bs =>
    if a.toNat < b.toNat then true
    else if b.toNat < a.toNat then false
    else charListLt as bs

/-- Python string `<`. -/
def strLt (a b : String) : Bool := charListLt a.data b.data

/-- `analyzed.sort(key=lambda x: x["timestamp"])`. -/
def sortByTimestamp (l : List AnalyzedMsg) : List AnalyzedMsg :=
  stableSort (fun a b => strLt a.timestamp b.timestamp) l

/-- The sorted analyzed message list of `analyze_messages`. -/
def analyzedOf (env : Env) (messages : List Msg) : List AnalyzedMsg :=
  sortByTimestamp (messages.map (analyzeOne env))

/-- `second_half_avg - first_half_avg` over a polarity sequence, split at
`mid = len // 2`. -/
def trendDiff (polarities : List ℚ) : ℚ :=
  (polarities.drop (polarities.length / 2)).sum
      / ((polarities.length - polarities.length / 2 : ℕ) : ℚ)
    - (polarities.take (polarities.length / 2)).sum / ((polarities.length / 2 : ℕ) : ℚ)

/-- The trend computation of `analyze_messages`. -/
def trendOf (polarities : List ℚ) : String :=
  if 0 < polarities.length / 2 then
    if trendDiff polarities < -(0.15 : ℚ) then "declining"
    else if (0.15 : ℚ) < trendDiff polarities then "improving"
    else "stable"
  else "stable"

/-- A `{week, avg_polarity, message_count}` entry of the weekly breakdown. -/
structure WeekStat where
  week : String
  avg_polarity : ℚ
  message_count : ℕ
deriving DecidableEq

/-- Append a polarity to its week's bucket, preserving the dict's insertion
order of keys. -/
def addToBucket : List (String × List ℚ) → String → ℚ → List (String × List ℚ)
  | [], k, p => [(k, [p])]
  | (k', ps) :: rest, k, p =>
    if k' = k then (k', ps ++ [p]) :: rest
    else (k', ps) :: addToBucket rest k p

/-- The `weeks` dict of `_compute_weekly_sentiment`: messages whose timestamp
fails to parse are skipped. -/
def weekBuckets (env : Env) (msgs : List AnalyzedMsg) : List (String × List ℚ) :=
  msgs.foldl (fun acc m =>
    match env.parseWeek m.timestamp with
    | none => acc
    | some wk => addToBucket acc wk m.polarity) []

/-- `_compute_weekly_sentiment`: per-week average polarity (3 decimals) and
count, weeks in ascending key order. -/
def _compute_weekly_sentiment (env : Env) (msgs : List AnalyzedMsg) : List WeekStat :=
  (stableSort (fun a b => strLt a.1 b.1) (weekBuckets env msgs)).map
    (fun b => { week := b.1, avg_polarity := roundTo 3 (b.2.sum / (b.2.length : ℚ)),
                message_count := b.2.length })

/-- The aggregate fields present only in the non-empty branch of
`analyze_messages`. -/
structure SentimentStats where
  total_messages : ℕ
  positive_count : ℕ
  neutral_count : ℕ
  negative_count : ℕ
  weekly_breakdown : List WeekStat
deriving DecidableEq

/-- The dict returned by `analyze_messages`; `stats = none` models the
short empty-input dict that carries no count/weekly keys. -/
structure SentimentSummary where
  messages : List AnalyzedMsg
  average_polarity : ℚ
  trend : String
  sentiment_label : String
  stats : Option SentimentStats
deriving DecidableEq

/-- `avg_polarity` of the non-empty branch. -/
def avgPolarity (env : Env) (messages : List Msg) : ℚ :=
  roundTo 3 (((analyzedOf env messages).map AnalyzedMsg.polarity).sum
    / ((analyzedOf env messages).length : ℚ))

/-- `analyze_messages`. -/
def analyze_messages (env : Env) (messages : List Msg) : SentimentSummary :=
  if messages = [] then
    { messages := [], average_polarity := 0, trend := "stable",
      sentiment_label := "neutral", stats := none }
  else
    { messages := analyzedOf env messages,
      average_polarity := avgPolarity env messages,
      trend := trendOf ((analyzedOf env messages).map AnalyzedMsg.polarity),
      sentiment_label := _polarity_label (avgPolarity env messages),
      stats := some
        { total_messages := (analyzedOf env messages).length,
          positive_count :=
            ((analyzedOf env messages).filter (fun m => decide (m.label = "positive"))).length,
          neutral_count :=
            ((analyzedOf env messages).filter (fun m => decide (m.label = "neutral"))).length,
          negative_count :=
            ((analyzedOf env messages).filter (fun m => decide (m.label = "negative"))).length,
          weekly_breakdown := _compute_weekly_sentiment env (analyzedOf env messages) } }

/-- Claim C9: the empty message list yields exactly the short dict
`{messages: [], average_polarity: 0, trend: "stable", sentiment_label:
"neutral"}` with no count or weekly fields. -/
theorem c9_analyze_messages_empty (env : Env) :
    analyze_messages env [] =
      { messages := [], average_polarity := 0, trend := "stable",
        sentiment_label := "neutral", stats := none } := rfl

/-- Claim C6: the trend of a non-empty message list splits the
timestamp-sorted polarity sequence at `mid = n / 2`: when `mid = 0` the trend
is "stable", otherwise it compares the two half means against ±0.15. -/
theorem c6_trend_split (env : Env) (messages : List Msg) (h : messages ≠ []) :
    (analyze_messages env messages).trend
      = trendOf ((analyzedOf env messages).map AnalyzedMsg.polarity) ∧
    (((analyzedOf env messages).map AnalyzedMsg.polarity).length / 2 = 0 →
      (analyze_messages env messages).trend = "stable") ∧
    (0 < ((analyzedOf env messages).map AnalyzedMsg.polarity).length / 2 →
      (analyze_messages env messages).trend =
        (if trendDiff ((analyzedOf env messages).map AnalyzedMsg.polarity) < -(0.15 : ℚ)
         then "declining"
         else if (0.15 : ℚ) < trendDiff ((analyzedOf env messages).map AnalyzedMsg.polarity)
         then "improving"
         else "stable")) := by
  have htrend : (analyze_messages env messages).trend
      = trendOf ((analyzedOf env messages).map AnalyzedMsg.polarity) := by
    unfold analyze_messages
    rw [if_neg h]
  refine ⟨htrend, ?_, ?_⟩
  · intro hmid
    rw [htrend]
    unfold trendOf
    rw [hmid]
    norm_num
  · intro hmid
    rw [htrend]
    unfold trendOf
    rw [if_pos hmid]

def envC6 : Env :=
  { sentiment := fun c => (if c = "a" ∨ c = "b" then (0.8 : ℚ) else (-0.8 : ℚ), 0),
    parseWeek := fun _ => none }

def msgsC6 : List Msg :=
  [⟨"a", "2024-01-01 10:00"⟩, ⟨"b", "2024-01-02 10:00"⟩,
   ⟨"c", "2024-01-03 10:00"⟩, ⟨"d", "2024-01-04 10:00"⟩]

/-- Claim C6 witness: chronological polarities `[0.8, 0.8, -0.8, -0.8]` give
the trend "declining". -/
theorem c6_trend_split_w : (analyze_messages envC6 msgsC6).trend = "declining" := by
  have h08 : roundTo 3 (0.8 : ℚ) = 0.8 := roundTo_eq_self_of_mul_int 3 0.8 800 (by norm_num)
  have hm08 : roundTo 3 (-0.8 : ℚ) = -0.8 :=
    roundTo_eq_self_of_mul_int 3 (-0.8) (-800) (by norm_num)
  have hps : (analyzedOf envC6 msgsC6).map AnalyzedMsg.polarity = [0.8, 0.8, -0.8, -0.8] := by
    simp [analyzedOf, sortByTimestamp, stableSort, insertOrd, msgsC6, analyzeOne,
      analyze_sentiment, envC6, strLt, charListLt, h08, hm08]
  have h := (c6_trend_split envC6 msgsC6 (by simp [msgsC6])).2.2 (by rw [hps]; norm_num)
  rw [h, hps]
  norm_num [trendDiff]

-- ─────────────────────────────────────────────────────────────────────────────
-- Work pattern and productivity scores
-- ─────────────────────────────────────────────────────────────────────────────

/-- One weekly work-log record. -/
structure WorkLog where
  avg_daily_hours : ℚ
  weekend_hours : ℚ
  late_night_sessions : ℚ
  breaks_taken_per_day : ℚ
  pto_balance_days : ℚ
  tasks_completed : ℚ
  tasks_assigned : ℚ
deriving DecidableEq

/-- `work_logs[-4:] if len(work_logs) >= 4 else work_logs`. -/
def recentLogs (work_logs : List WorkLog) : List WorkLog :=
  if 4 ≤ work_logs.length then work_logs.drop (work_logs.length - 4) else work_logs

/-- `work_logs[:4] if len(work_logs) >= 4 else work_logs[:1]`. -/
def olderLogs (work_logs : List WorkLog) : List WorkLog :=
  if 4 ≤ work_logs.length then work_logs.take 4 else work_logs.take 1

/-- Mean of a field over a window of logs. -/
def wlMean (f : WorkLog → ℚ) (logs : List WorkLog) : ℚ :=
  (logs.map f).sum / (logs.length : ℚ)

/-- `min(100, max(0, x))`. -/
def clamp100 (x : ℚ) : ℚ := min 100 (max 0 x)

/-- `compute_work_pattern_score`. -/
def compute_work_pattern_score (work_logs : List WorkLog) : ℚ :=
  if work_logs = [] then 50
  else
    roundTo 1 (
      clamp100 ((wlMean WorkLog.avg_daily_hours (recentLogs work_logs) - 8) / 6 * 100) * 0.30 +
      clamp100 (wlMean WorkLog.weekend_hours (recentLogs work_logs) / 6 * 100) * 0.20 +
      clamp100 (wlMean WorkLog.late_night_sessions (recentLogs work_logs) / 5 * 100) * 0.20 +
      clamp100 ((5 - wlMean WorkLog.breaks_taken_per_day (recentLogs work_logs)) / 5 * 100) * 0.15 +
      clamp100 ((15 - wlMean WorkLog.pto_balance_days (recentLogs work_logs)) / 15 * 100) * 0.15)

/-- `recent_completion`. -/
def recentCompletion (work_logs : List WorkLog) : ℚ :=
  wlMean WorkLog.tasks_completed (recentLogs work_logs)

/-- `older_completion`. -/
def olderCompletion (work_logs : List WorkLog) : ℚ :=
  wlMean WorkLog.tasks_completed (olderLogs work_logs)

/-- `recent_assigned`. -/
def recentAssigned (work_logs : List WorkLog) : ℚ :=
  wlMean WorkLog.tasks_assigned (recentLogs work_logs)

/-- `completion_rate = recent_completion / max(recent_assigned, 1) * 100`. -/
def completionRate (work_logs : List WorkLog) : ℚ :=
  recentCompletion work_logs / max (recentAssigned work_logs) 1 * 100

/-- `decline`, guarded by `older_completion > 0`. -/
def declineOf (work_logs : List WorkLog) : ℚ :=
  if 0 < olderCompletion work_logs then
    (olderCompletion work_logs - recentCompletion work_logs) / olderCompletion work_logs * 100
  else 0

/-- `compute_productivity_score`. -/
def compute_productivity_score (work_logs : List WorkLog) : ℚ :=
  if work_logs.length < 2 then 50
  else
    roundTo 1 (clamp100 ((100 - completionRate work_logs) / 70 * 100) * 0.50 +
      clamp100 (declineOf work_logs * 2) * 0.50)

-- ─────────────────────────────────────────────────────────────────────────────
-- Sentiment score (`compute_sentiment_score`)
-- ─────────────────────────────────────────────────────────────────────────────

/-- `compute_sentiment_score`. The `stats = none` arm with non-empty messages
models an input shape the engine itself never produces (its summaries carry the
count fields whenever `messages` is non-empty). -/
def compute_sentiment_score (sa : SentimentSummary) : ℚ :=
  if sa.messages = [] then 50
  else
    match sa.stats with
    | none => 50
    | some st =>
      roundTo 1 (min 100 (max 0 (
        ((1 - sa.average_polarity) / 2) * 100 * 0.50 +
        ((st.negative_count : ℚ) / max (st.total_messages : ℚ) 1) * 100 * 0.30 +
        (50 + (if sa.trend = "declining" then (15 : ℚ)
               else if sa.trend = "improving" then -10 else 0)) * 0.20)))

-- ─────────────────────────────────────────────────────────────────────────────
-- Anti-faking detection (`detect_faking`)
-- ─────────────────────────────────────────────────────────────────────────────

/-- An assessment record (the fields `detect_faking` and the composite scorer
read). -/
structure Assessment where
  timestamp : String
  answers : List (String × ℤ)
  response_times : List (String × ℚ)
deriving DecidableEq

/-- The reason strings of `detect_faking`, with their interpolated numbers kept
as payloads. -/
inductive FakeReason where
  | fast (avg : ℚ)
  | uniform
  | work_gap (assessment work : ℚ)
  | sentiment_gap (sentiment assessment : ℚ)
  | pattern
deriving DecidableEq

/-- The faking verdict dict. -/
structure FakingVerdict where
  is_suspicious : Bool
  confidence : ℚ
  reasons : List FakeReason
deriving DecidableEq

/-- `avg_time = sum(times) / len(times)`. -/
def avgTime (a : Assessment) : ℚ :=
  (a.response_times.map Prod.snd).sum / ((a.response_times.map Prod.snd).length : ℚ)

/-- `variance = sum((t - avg_time)**2 for t in times) / len(times)`. -/
def timesVariance (a : Assessment) : ℚ :=
  ((a.response_times.map Prod.snd).map (fun t => (t - avgTime a) ^ 2)).sum
    / ((a.response_times.map Prod.snd).length : ℚ)

/-- Check 1 (response-time speed and uniformity): triggered reasons and
suspicion contribution. -/
def fakingStep1 (a : Assessment) : List FakeReason × ℚ :=
  if a.response_times = [] then ([], 0)
  else
    ((if avgTime a < 3 then [FakeReason.fast (avgTime a)] else []) ++
      (if 3 < (a.response_times.map Prod.snd).length ∧ timesVariance a < 1
       then [FakeReason.uniform] else []),
     (if avgTime a < 3 then (0.3 : ℚ) else 0) +
      (if 3 < (a.response_times.map Prod.snd).length ∧ timesVariance a < 1
       then (0.2 : ℚ) else 0))

/-- Check 2 (self-report vs work data gap). -/
def fakingStep2 (catalog : List Question) (a : Assessment) (work_logs : List WorkLog) :
    List FakeReason × ℚ :=
  if work_logs = [] then ([], 0)
  else if 40 < |compute_work_pattern_score work_logs - compute_assessment_score catalog a.answers| ∧
      compute_assessment_score catalog a.answers < compute_work_pattern_score work_logs then
    ([FakeReason.work_gap (compute_assessment_score catalog a.answers)
        (compute_work_pattern_score work_logs)], 0.3)
  else ([], 0)

/-- Check 3 (sentiment vs self-report gap). -/
def fakingStep3 (catalog : List Question) (a : Assessment) (sa : SentimentSummary) :
    List FakeReason × ℚ :=
  if sa.messages = [] then ([], 0)
  else if 35 < |compute_sentiment_score sa - compute_assessment_score catalog a.answers| ∧
      compute_assessment_score catalog a.answers < compute_sentiment_score sa then
    ([FakeReason.sentiment_gap (compute_sentiment_score sa)
        (compute_assessment_score catalog a.answers)], 0.2)
  else ([], 0)

/-- Check 4 (answer values collapse to at most two distinct values). -/
def fakingStep4 (a : Assessment) : List FakeReason × ℚ :=
  if a.answers = [] then ([], 0)
  else if (a.answers.map Prod.snd).dedup.length ≤ 2 then ([FakeReason.pattern], 0.15)
  else ([], 0)

/-- The accumulated `suspicion_score`. -/
def suspicionScore (catalog : List Question) (a : Assessment) (work_logs : List WorkLog)
    (sa : SentimentSummary) : ℚ :=
  (fakingStep1 a).2 + (fakingStep2 catalog a work_logs).2 +
    (fakingStep3 catalog a sa).2 + (fakingStep4 a).2

/-- The accumulated `reasons` list, in check order. -/
def fakingReasons (catalog : List Question) (a : Assessment) (work_logs : List WorkLog)
    (sa : SentimentSummary) : List FakeReason :=
  (fakingStep1 a).1 ++ (fakingStep2 catalog a work_logs).1 ++
    (fakingStep3 catalog a sa).1 ++ (fakingStep4 a).1

/-- `detect_faking` (`none` models a falsy `assessment` argument). -/
def detect_faking (catalog : List Question) (assessment : Option Assessment)
    (work_logs : List WorkLog) (sa : SentimentSummary) : FakingVerdict :=
  match assessment with
  | none => ⟨false, 0, []⟩
  | some a =>
    ⟨decide ((0.3 : ℚ) ≤ suspicionScore catalog a work_logs sa),
     roundTo 2 (min 1 (suspicionScore catalog a work_logs sa)),
     fakingReasons catalog a work_logs sa⟩

theorem roundTo_near_ge (d : ℕ) (x : ℚ) : x - 1 / (2 * (10:ℚ)^d) ≤ roundTo d x := by
  unfold roundTo
  have hp : (0:ℚ) < (10:ℚ)^d := by positivity
  rw [le_div_iff₀ hp]
  have h := rqi_ge (x * (10:ℚ)^d)
  calc (x - 1 / (2 * (10:ℚ)^d)) * (10:ℚ)^d = x * (10:ℚ)^d - 1/2 := by
        field_simp
        ring
  _ ≤ (rqi (x * (10:ℚ)^d) : ℚ) := h

theorem fakingStep2_nonneg (catalog : List Question) (a : Assessment)
    (work_logs : List WorkLog) : 0 ≤ (fakingStep2 catalog a work_logs).2 := by
  unfold fakingStep2
  split_ifs <;> norm_num

theorem fakingStep3_nonneg (catalog : List Question) (a : Assessment)
    (sa : SentimentSummary) : 0 ≤ (fakingStep3 catalog a sa).2 := by
  unfold fakingStep3
  split_ifs <;> norm_num

theorem fakingStep4_nonneg (a : Assessment) : 0 ≤ (fakingStep4 a).2 := by
  unfold fakingStep4
  split_ifs <;> norm_num

/-- Claim C5: `is_suspicious` is exactly `suspicion_score >= 0.3` and
`confidence` is `round(min(1.0, suspicion_score), 2)`; every check that fires
contributes its reason regardless of the others; and an assessment whose
response times are all 1.5 s over at least 4 questions is suspicious with
confidence ≥ 0.3 and both the fast and the uniform reasons present. -/
theorem c5_detect_faking (catalog : List Question) (a : Assessment)
    (work_logs : List WorkLog) (sa : SentimentSummary) :
    ((detect_faking catalog (some a) work_logs sa).is_suspicious = true ↔
      (0.3 : ℚ) ≤ suspicionScore catalog a work_logs sa) ∧
    (detect_faking catalog (some a) work_logs sa).confidence
      = roundTo 2 (min 1 (suspicionScore catalog a work_logs sa)) ∧
    (a.response_times ≠ [] → avgTime a < 3 →
      FakeReason.fast (avgTime a) ∈ (detect_faking catalog (some a) work_logs sa).reasons) ∧
    (a.response_times ≠ [] → 3 < (a.response_times.map Prod.snd).length →
      timesVariance a < 1 →
      FakeReason.uniform ∈ (detect_faking catalog (some a) work_logs sa).reasons) ∧
    (work_logs ≠ [] →
      40 < |compute_work_pattern_score work_logs - compute_assessment_score catalog a.answers| →
      compute_assessment_score catalog a.answers < compute_work_pattern_score work_logs →
      FakeReason.work_gap (compute_assessment_score catalog a.answers)
          (compute_work_pattern_score work_logs)
        ∈ (detect_faking catalog (some a) work_logs sa).reasons) ∧
    (sa.messages ≠ [] →
      35 < |compute_sentiment_score sa - compute_assessment_score catalog a.answers| →
      compute_assessment_score catalog a.answers < compute_sentiment_score sa →
      FakeReason.sentiment_gap (compute_sentiment_score sa)
          (compute_assessment_score catalog a.answers)
        ∈ (detect_faking catalog (some a) work_logs sa).reasons) ∧
    (a.answers ≠ [] → (a.answers.map Prod.snd).dedup.length ≤ 2 →
      FakeReason.pattern ∈ (detect_faking catalog (some a) work_logs sa).reasons) ∧
    (∀ n : ℕ, 4 ≤ n → a.response_times.map Prod.snd = List.replicate n (3/2) →
      (detect_faking catalog (some a) work_logs sa).is_suspicious = true ∧
      (0.3 : ℚ) ≤ (detect_faking catalog (some a) work_logs sa).confidence ∧
      FakeReason.fast (3/2) ∈ (detect_faking catalog (some a) work_logs sa).reasons ∧
      FakeReason.uniform ∈ (detect_faking catalog (some a) work_logs sa).reasons) := by
  have hsusp : (detect_faking catalog (some a) work_logs sa).is_suspicious = true ↔
      (0.3 : ℚ) ≤ suspicionScore catalog a work_logs sa := by
    unfold detect_faking
    simp
  have hfastmem : a.response_times ≠ [] → avgTime a < 3 →
      FakeReason.fast (avgTime a) ∈ (detect_faking catalog (some a) work_logs sa).reasons := by
    intro hne hf
    unfold detect_faking fakingReasons fakingStep1
    simp [hne, hf]
  have hunifmem : a.response_times ≠ [] → 3 < (a.response_times.map Prod.snd).length →
      timesVariance a < 1 →
      FakeReason.uniform ∈ (detect_faking catalog (some a) work_logs sa).reasons := by
    intro hne hlen hvar
    have hlen2 : 3 < a.response_times.length := by simpa using hlen
    unfold detect_faking fakingReasons fakingStep1
    simp [hne, hlen, hlen2, hvar]
  refine ⟨hsusp, rfl, hfastmem, hunifmem, ?_, ?_, ?_, ?_⟩
  · intro hne hgap hlt
    unfold detect_faking fakingReasons fakingStep2
    simp [hne, hgap, hlt]
  · intro hne hgap hlt
    unfold detect_faking fakingReasons fakingStep3
    simp [hne, hgap, hlt]
  · intro hne hded
    unfold detect_faking fakingReasons fakingStep4
    simp [hne, hded]
  · intro n hn htimes
    have hn0 : (n : ℚ) ≠ 0 := Nat.cast_ne_zero.mpr (by omega)
    have hne : a.response_times ≠ [] := by
      intro he
      rw [he] at htimes
      simp at htimes
      omega
    have hlen : (a.response_times.map Prod.snd).length = n := by rw [htimes]; simp
    have hsum : (a.response_times.map Prod.snd).sum = (n : ℚ) * (3/2) := by
      rw [htimes]
      simp [List.sum_replicate, nsmul_eq_mul]
    have havg : avgTime a = 3/2 := by
      unfold avgTime
      rw [hsum, hlen]
      exact mul_div_cancel_left₀ (3/2) hn0
    have hfast : avgTime a < 3 := by rw [havg]; norm_num
    have hvar : timesVariance a < 1 := by
      unfold timesVariance
      rw [havg, htimes]
      simp [List.map_replicate, List.sum_replicate]
    have hlen3 : 3 < (a.response_times.map Prod.snd).length := by omega
    have hstep1 : (fakingStep1 a).2 = 1/2 := by
      unfold fakingStep1
      rw [if_neg hne]
      simp only [if_pos hfast,
        if_pos (show 3 < (a.response_times.map Prod.snd).length ∧ timesVariance a < 1 from
          ⟨hlen3, hvar⟩)]
      norm_num
    have hscore : (1/2 : ℚ) ≤ suspicionScore catalog a work_logs sa := by
      unfold suspicionScore
      have h2 := fakingStep2_nonneg catalog a work_logs
      have h3 := fakingStep3_nonneg catalog a sa
      have h4 := fakingStep4_nonneg a
      rw [hstep1]
      linarith
    have hconf : (0.3 : ℚ) ≤ (detect_faking catalog (some a) work_logs sa).confidence := by
      have hmin : (1/2 : ℚ) ≤ min 1 (suspicionScore catalog a work_logs sa) :=
        le_min (by norm_num) hscore
      have hnear := roundTo_near_ge 2 (min 1 (suspicionScore catalog a work_logs sa))
      have h200 : (1:ℚ) / (2 * (10:ℚ)^2) = 1/200 := by norm_num
      rw [h200] at hnear
      show (0.3 : ℚ) ≤ roundTo 2 (min 1 (suspicionScore catalog a work_logs sa))
      linarith
    refine ⟨hsusp.mpr (by linarith), hconf, ?_, ?_⟩
    · have := hfastmem hne hfast
      rwa [havg] at this
    · exact hunifmem hne hlen3 (by linarith)

def assessC5 : Assessment :=
  { timestamp := "2024-02-01 09:00",
    answers := [("q1", 2), ("q2", 1), ("q3", 2), ("q4", 4), ("q5", 4)],
    response_times := [("q1", 1.5), ("q2", 1.5), ("q3", 1.5), ("q4", 1.5), ("q5", 1.5)] }

def saEmpty : SentimentSummary :=
  { messages := [], average_polarity := 0, trend := "stable",
    sentiment_label := "neutral", stats := none }

/-- Claim C5 witness: a concrete assessment with five uniform 1.5 s response
times is flagged with both timing reasons. -/
theorem c5_detect_faking_w :
    (detect_faking sampleCatalog (some assessC5) [] saEmpty).is_suspicious = true ∧
    (0.3 : ℚ) ≤ (detect_faking sampleCatalog (some assessC5) [] saEmpty).confidence ∧
    FakeReason.fast (3/2) ∈ (detect_faking sampleCatalog (some assessC5) [] saEmpty).reasons ∧
    FakeReason.uniform ∈ (detect_faking sampleCatalog (some assessC5) [] saEmpty).reasons := by
  have h := (c5_detect_faking sampleCatalog assessC5 [] saEmpty).2.2.2.2.2.2.2
  exact h 5 (by norm_num) (by norm_num [assessC5, List.replicate])

-- ─────────────────────────────────────────────────────────────────────────────
-- Composite burnout score (`compute_burnout_score`)
-- ─────────────────────────────────────────────────────────────────────────────

theorem WEIGHTS_assessment : WEIGHTS "assessment" = 0.75 := rfl

theorem WEIGHTS_sentiment : WEIGHTS "sentiment" = 0.10 := rfl

theorem WEIGHTS_work_pattern : WEIGHTS "work_pattern" = 0.10 := rfl

theorem WEIGHTS_productivity : WEIGHTS "productivity" = 0.05 := rfl

/-- A `{score, weight}` entry of the result's `breakdown`. -/
structure ScoreEntry where
  score : ℚ
  weight : ℚ
deriving DecidableEq

/-- The four-entry `breakdown` dict. -/
structure Breakdown where
  assessment : ScoreEntry
  sentiment : ScoreEntry
  work_pattern : ScoreEntry
  productivity : ScoreEntry
deriving DecidableEq

/-- A `{date, score}` entry of `assessment_trend`. -/
structure TrendEntry where
  date : String
  score : ℚ
deriving DecidableEq

/-- The dict returned by `compute_burnout_score`. -/
structure BurnoutResult where
  employee_id : String
  composite_score : ℚ
  adjusted_score : ℚ
  risk_level : String
  breakdown : Breakdown
  sentiment_analysis : SentimentSummary
  faking_detection : FakingVerdict
  assessment_trend : List TrendEntry
  last_assessment_date : Option String
deriving DecidableEq

/-- The clamped, rounded weighted composite of the non-empty branch. -/
def compositeScore (env : Env) (catalog : List Question) (latest : Assessment)
    (work_logs : List WorkLog) (messages : List Msg) : ℚ :=
  roundTo 1 (min 100 (max 0 (
    compute_assessment_score catalog latest.answers * WEIGHTS "assessment" +
    compute_sentiment_score (analyze_messages env messages) * WEIGHTS "sentiment" +
    compute_work_pattern_score work_logs * WEIGHTS "work_pattern" +
    compute_productivity_score work_logs * WEIGHTS "productivity")))

/-- The `objective_score` blend used when faking is suspected. -/
def objectiveScore (env : Env) (work_logs : List WorkLog) (messages : List Msg) : ℚ :=
  compute_sentiment_score (analyze_messages env messages) * 0.40 +
  compute_work_pattern_score work_logs * 0.35 +
  compute_productivity_score work_logs * 0.25

/-- `adjusted_score`: raised to the objective blend (and re-rounded) only when
the faking verdict is suspicious. -/
def adjustedScore (env : Env) (catalog : List Question) (latest : Assessment)
    (work_logs : List WorkLog) (messages : List Msg) : ℚ :=
  if (detect_faking catalog (some latest) work_logs (analyze_messages env messages)).is_suspicious
  then
    roundTo 1 (max (compositeScore env catalog latest work_logs messages)
      (objectiveScore env work_logs messages))
  else compositeScore env catalog latest work_logs messages

/-- `compute_burnout_score`. -/
def compute_burnout_score (env : Env) (catalog : List Question) (employee_id : String)
    (assessments : List Assessment) (work_logs : List WorkLog) (messages : List Msg) :
    BurnoutResult :=
  match assessments.getLast? with
  | none =>
    { employee_id := employee_id, composite_score := 0, adjusted_score := 0, risk_level := "low",
      breakdown :=
        { assessment := ⟨0, WEIGHTS "assessment"⟩, sentiment := ⟨0, WEIGHTS "sentiment"⟩,
          work_pattern := ⟨0, WEIGHTS "work_pattern"⟩,
          productivity := ⟨0, WEIGHTS "productivity"⟩ },
      sentiment_analysis := analyze_messages env messages,
      faking_detection := ⟨false, 0, []⟩,
      assessment_trend := [],
      last_assessment_date := none }
  | some latest =>
    { employee_id := employee_id,
      composite_score := compositeScore env catalog latest work_logs messages,
      adjusted_score := adjustedScore env catalog latest work_logs messages,
      risk_level := _get_risk_level (adjustedScore env catalog latest work_logs messages),
      breakdown :=
        { assessment := ⟨compute_assessment_score catalog latest.answers, WEIGHTS "assessment"⟩,
          sentiment := ⟨compute_sentiment_score (analyze_messages env messages),
            WEIGHTS "sentiment"⟩,
          work_pattern := ⟨compute_work_pattern_score work_logs, WEIGHTS "work_pattern"⟩,
          productivity := ⟨compute_productivity_score work_logs, WEIGHTS "productivity"⟩ },
      sentiment_analysis := analyze_messages env messages,
      faking_detection := detect_faking catalog (some latest) work_logs
        (analyze_messages env messages),
      assessment_trend := assessments.map
        (fun x => ⟨x.timestamp, compute_assessment_score catalog x.answers⟩),
      last_assessment_date := some latest.timestamp }

/-- Claim C3: with no assessments the result is the fixed "unmeasured" record —
zero scores, "low" risk, a clean faking verdict, no trend and no date — except
that the sentiment summary is still computed from the messages. -/
theorem c3_no_assessments (env : Env) (catalog : List Question) (employee_id : String)
    (work_logs : List WorkLog) (messages : List Msg) :
    compute_burnout_score env catalog employee_id [] work_logs messages =
      { employee_id := employee_id, composite_score := 0, adjusted_score := 0,
        risk_level := "low",
        breakdown :=
          { assessment := ⟨0, WEIGHTS "assessment"⟩, sentiment := ⟨0, WEIGHTS "sentiment"⟩,
            work_pattern := ⟨0, WEIGHTS "work_pattern"⟩,
            productivity := ⟨0, WEIGHTS "productivity"⟩ },
        sentiment_analysis := analyze_messages env messages,
        faking_detection := ⟨false, 0, []⟩,
        assessment_trend := [],
        last_assessment_date := none } := rfl

/-- `roundTo d y` is a fixed point of `x ↦ roundTo d (max x z)` from below. -/
theorem roundTo_le_roundTo_max (d : ℕ) (y z : ℚ) :
    roundTo d y ≤ roundTo d (max (roundTo d y) z) := by
  have hp : (0:ℚ) < (10:ℚ)^d := by positivity
  have hne : ((10:ℚ)^d) ≠ 0 := ne_of_gt hp
  have hc : roundTo d y * (10:ℚ)^d = ((rqi (y * (10:ℚ)^d)) : ℚ) := by
    unfold roundTo
    exact div_mul_cancel₀ _ hne
  have h2 : roundTo d y * (10:ℚ)^d ≤ max (roundTo d y) z * (10:ℚ)^d :=
    mul_le_mul_of_nonneg_right (le_max_left _ _) hp.le
  have h3 : ((rqi (y * (10:ℚ)^d)) : ℚ) ≤ max (roundTo d y) z * (10:ℚ)^d := by
    rw [← hc]; exact h2
  have h5 : ((rqi (y * (10:ℚ)^d)) : ℚ) ≤ ((rqi (max (roundTo d y) z * (10:ℚ)^d)) : ℚ) := by
    exact_mod_cast le_rqi_of_cast_le h3
  calc roundTo d y = ((rqi (y * (10:ℚ)^d)) : ℚ) / (10:ℚ)^d := rfl
  _ ≤ ((rqi (max (roundTo d y) z * (10:ℚ)^d)) : ℚ) / (10:ℚ)^d := by gcongr
  _ = roundTo d (max (roundTo d y) z) := rfl

/-- Claim C2: for a non-empty assessment list the adjusted score never drops
below the composite; it equals the composite when the verdict is not
suspicious, and equals the re-rounded max of the composite and the
0.40/0.35/0.25 objective blend when it is. -/
theorem c2_adjusted_score (env : Env) (catalog : List Question) (employee_id : String)
    (assessments : List Assessment) (work_logs : List WorkLog) (messages : List Msg)
    (h : assessments ≠ []) :
    (compute_burnout_score env catalog employee_id assessments work_logs messages).composite_score
      ≤ (compute_burnout_score env catalog employee_id assessments work_logs
          messages).adjusted_score ∧
    ((compute_burnout_score env catalog employee_id assessments work_logs
        messages).faking_detection.is_suspicious = false →
      (compute_burnout_score env catalog employee_id assessments work_logs
        messages).adjusted_score =
      (compute_burnout_score env catalog employee_id assessments work_logs
        messages).composite_score) ∧
    ((compute_burnout_score env catalog employee_id assessments work_logs
        messages).faking_detection.is_suspicious = true →
      (compute_burnout_score env catalog employee_id assessments work_logs
        messages).adjusted_score =
      roundTo 1 (max
        (compute_burnout_score env catalog employee_id assessments work_logs
          messages).composite_score
        ((compute_burnout_score env catalog employee_id assessments work_logs
            messages).breakdown.sentiment.score * 0.40 +
         (compute_burnout_score env catalog employee_id assessments work_logs
            messages).breakdown.work_pattern.score * 0.35 +
         (compute_burnout_score env catalog employee_id assessments work_logs
            messages).breakdown.productivity.score * 0.25))) := by
  obtain ⟨l, hl⟩ := Option.isSome_iff_exists.mp (List.getLast?_isSome.mpr h)
  unfold compute_burnout_score
  rw [hl]
  refine ⟨?_, ?_, ?_⟩
  · show compositeScore env catalog l work_logs messages ≤
      adjustedScore env catalog l work_logs messages
    unfold adjustedScore
    split_ifs with hs
    · exact roundTo_le_roundTo_max 1 _ _
    · exact le_refl _
  · intro hns
    show adjustedScore env catalog l work_logs messages =
      compositeScore env catalog l work_logs messages
    unfold adjustedScore
    rw [if_neg (by simp_all)]
  · intro hs
    show adjustedScore env catalog l work_logs messages = _
    unfold adjustedScore
    rw [if_pos (by simp_all)]
    rfl

/-- Claim C7: with the work logs and messages fixed, a latest assessment whose
assessment score is not larger yields a composite score that is not larger. -/
theorem c7_composite_monotone (env : Env) (catalog : List Question) (employee_id : String)
    (rest : List Assessment) (a : Assessment) (ans2 : List (String × ℤ))
    (work_logs : List WorkLog) (messages : List Msg)
    (hle : compute_assessment_score catalog a.answers ≤ compute_assessment_score catalog ans2) :
    (compute_burnout_score env catalog employee_id (rest ++ [a]) work_logs
        messages).composite_score ≤
    (compute_burnout_score env catalog employee_id (rest ++ [{ a with answers := ans2 }])
        work_logs messages).composite_score := by
  have h1 : (rest ++ [a]).getLast? = some a := List.getLast?_concat rest
  have h2 : (rest ++ [{ a with answers := ans2 }]).getLast? =
      some { a with answers := ans2 } := List.getLast?_concat rest
  unfold compute_burnout_score
  rw [h1, h2]
  show compositeScore env catalog a work_logs messages ≤
    compositeScore env catalog { a with answers := ans2 } work_logs messages
  unfold compositeScore
  apply roundTo_mono
  apply min_le_min (le_refl _)
  apply max_le_max (le_refl _)
  have hw : (0:ℚ) ≤ WEIGHTS "assessment" := by rw [WEIGHTS_assessment]; norm_num
  have := mul_le_mul_of_nonneg_right hle hw
  simp only []
  linarith

def assessEmpty : Assessment :=
  { timestamp := "2024-01-05 10:00", answers := [], response_times := [] }

/-- Claim C2 witness: the inequality instantiated at a concrete single
assessment with no logs or messages. -/
theorem c2_adjusted_score_w :
    (compute_burnout_score envC6 sampleCatalog "e1" [assessEmpty] [] []).composite_score
      ≤ (compute_burnout_score envC6 sampleCatalog "e1" [assessEmpty] [] []).adjusted_score :=
  (c2_adjusted_score envC6 sampleCatalog "e1" [assessEmpty] [] [] (by simp)).1

/-- Claim C7 witness: raising the latest answers from none to a full burnout
answer raises (or keeps) the composite. -/
theorem c7_composite_monotone_w :
    (compute_burnout_score envC6 sampleCatalog "e1" ([] ++ [assessEmpty]) [] []).composite_score ≤
    (compute_burnout_score envC6 sampleCatalog "e1"
      ([] ++ [{ assessEmpty with answers := [("q1", 5)] }]) [] []).composite_score := by
  apply c7_composite_monotone
  calc compute_assessment_score sampleCatalog assessEmpty.answers = 0 := rfl
  _ ≤ compute_assessment_score sampleCatalog [("q1", 5)] :=
      (compute_assessment_score_bounds sampleCatalog [("q1", 5)] (by decide)).1

-- ─────────────────────────────────────────────────────────────────────────────
-- Exception-tracking variants: every data-dependent division becomes a checked
-- division (`none` models a ZeroDivisionError escaping the engine); divisions
-- by literal constants (e.g. `/6`, `*100`) cannot raise and stay plain.
-- ─────────────────────────────────────────────────────────────────────────────

/-- Checked division. -/
def cdiv (x y : ℚ) : Option ℚ := if y = 0 then none else some (x / y)

theorem cdiv_eq_some {x y : ℚ} (h : y ≠ 0) : cdiv x y = some (x / y) := if_neg h

/-- Sequence a fallible function over a list, aborting at the first failure —
a Python `for` loop in which an iteration may raise. -/
def optMap {α β : Type} (f : α → Option β) : List α → Option (List β)
  | [] => some []
  | x :: xs =>
    match f x, optMap f xs with
    | some y, some ys => some (y :: ys)
    | _, _ => none

theorem optMap_eq_some {α β : Type} (f : α → Option β) (g : α → β) :
    ∀ l : List α, (∀ x ∈ l, f x = some (g x)) → optMap f l = some (l.map g) := by
  intro l
  induction l with
  | nil => intro _; rfl
  | cons x xs ih =>
    intro h
    have hx := h x (by simp)
    have hxs := ih (fun y hy => h y (by simp [hy]))
    simp [optMap, hx, hxs]

/-- The trend computation with its two half-mean divisions checked. -/
def trendOfE (ps : List ℚ) : Option String :=
  if 0 < ps.length / 2 then do
    let fh ← cdiv (ps.take (ps.length / 2)).sum ((ps.length / 2 : ℕ) : ℚ)
    let sh ← cdiv (ps.drop (ps.length / 2)).sum ((ps.length - ps.length / 2 : ℕ) : ℚ)
    pure (if sh - fh < -(0.15 : ℚ) then "declining"
      else if (0.15 : ℚ) < sh - fh then "improving" else "stable")
  else pure "stable"

theorem trendOfE_eq (ps : List ℚ) : trendOfE ps = some (trendOf ps) := by
  unfold trendOfE trendOf
  by_cases hmid : 0 < ps.length / 2
  · rw [if_pos hmid, if_pos hmid]
    have h1 : ((ps.length / 2 : ℕ) : ℚ) ≠ 0 := Nat.cast_ne_zero.mpr (by omega)
    have h2 : ((ps.length - ps.length / 2 : ℕ) : ℚ) ≠ 0 := Nat.cast_ne_zero.mpr (by omega)
    rw [cdiv_eq_some h1, cdiv_eq_some h2]
    rfl
  · rw [if_neg hmid, if_neg hmid]
    rfl

/-- One weekly entry, with the bucket-mean division checked. -/
def weekStatE (b : String × List ℚ) : Option WeekStat := do
  let avg ← cdiv b.2.sum (b.2.length : ℚ)
  pure ⟨b.1, roundTo 3 avg, b.2.length⟩

/-- `_compute_weekly_sentiment` with checked divisions. -/
def _compute_weekly_sentimentE (env : Env) (msgs : List AnalyzedMsg) :
    Option (List WeekStat) :=
  optMap weekStatE (stableSort (fun a b => strLt a.1 b.1) (weekBuckets env msgs))

theorem insertOrd_mem {α : Type} (lt : α → α → Bool) :
    ∀ (l : List α) (x b : α), b ∈ insertOrd lt l x → b = x ∨ b ∈ l := by
  intro l
  induction l with
  | nil => intro x b hb; simpa [insertOrd] using hb
  | cons y ys ih =>
    intro x b hb
    unfold insertOrd at hb
    split_ifs at hb with hxy
    · rcases List.mem_cons.mp hb with h | h
      · exact Or.inl h
      · exact Or.inr h
    · rcases List.mem_cons.mp hb with h | h
      · exact Or.inr (by simp [h])
      · rcases ih x b h with h2 | h2
        · exact Or.inl h2
        · exact Or.inr (by simp [h2])

theorem insertOrd_perm {α : Type} (lt : α → α → Bool) :
    ∀ (l : List α) (x : α), List.Perm (insertOrd lt l x) (x :: l) := by
  intro l
  induction l with
  | nil => intro x; simp [insertOrd]
  | cons y ys ih =>
    intro x
    unfold insertOrd
    split_ifs with hxy
    · exact List.Perm.refl _
    · exact ((ih x).cons y).trans (List.Perm.swap x y ys)

theorem foldl_insertOrd_perm {α : Type} (lt : α → α → Bool) :
    ∀ (l acc : List α), List.Perm (List.foldl (insertOrd lt) acc l) (acc ++ l) := by
  intro l
  induction l with
  | nil => intro acc; simp
  | cons x xs ih =>
    intro acc
    rw [List.foldl_cons]
    have h1 := ih (insertOrd lt acc x)
    have h2 : List.Perm (insertOrd lt acc x ++ xs) ((x :: acc) ++ xs) :=
      (insertOrd_perm lt acc x).append_right xs
    have h3 : List.Perm ((x :: acc) ++ xs) (acc ++ x :: xs) := List.perm_middle.symm
    exact h1.trans (h2.trans h3)

theorem stableSort_perm {α : Type} (lt : α → α → Bool) (l : List α) :
    List.Perm (stableSort lt l) l := by
  unfold stableSort
  simpa using foldl_insertOrd_perm lt l []

theorem stableSort_mem {α : Type} (lt : α → α → Bool) (l : List α) (b : α)
    (hb : b ∈ stableSort lt l) : b ∈ l :=
  (stableSort_perm lt l).mem_iff.mp hb

theorem addToBucket_ne_nil (buckets : List (String × List ℚ)) (k : String) (p : ℚ)
    (h : ∀ b ∈ buckets, b.2 ≠ []) : ∀ b ∈ addToBucket buckets k p, b.2 ≠ [] := by
  induction buckets with
  | nil => intro b hb; simp [addToBucket] at hb; simp [hb]
  | cons c rest ih =>
    rcases c with ⟨k', ps⟩
    intro b hb
    unfold addToBucket at hb
    split_ifs at hb with hk
    · rcases List.mem_cons.mp hb with h1 | h1
      · rw [h1]
        exact List.length_pos.mp (by simp)
      · exact h b (List.mem_cons_of_mem _ h1)
    · rcases List.mem_cons.mp hb with h1 | h1
      · rw [h1]
        exact h (k', ps) (List.mem_cons_self _ _)
      · exact ih (fun b2 hb2 => h b2 (List.mem_cons_of_mem _ hb2)) b h1

theorem weekBuckets_ne_nil (env : Env) (msgs : List AnalyzedMsg) :
    ∀ b ∈ weekBuckets env msgs, b.2 ≠ [] := by
  unfold weekBuckets
  suffices h : ∀ (l : List AnalyzedMsg) (acc : List (String × List ℚ)),
      (∀ b ∈ acc, b.2 ≠ []) →
      ∀ b ∈ l.foldl (fun acc m =>
        match env.parseWeek m.timestamp with
        | none => acc
        | some wk => addToBucket acc wk m.polarity) acc, b.2 ≠ [] by
    exact h msgs [] (by simp)
  intro l
  induction l with
  | nil => intro acc hacc; exact hacc
  | cons m ms ih =>
    intro acc hacc
    rw [List.foldl_cons]
    rcases hp : env.parseWeek m.timestamp with _ | wk
    · simp only [hp]
      exact ih acc hacc
    · simp only [hp]
      exact ih _ (addToBucket_ne_nil acc wk m.polarity hacc)

theorem weekly_sentimentE_eq (env : Env) (msgs : List AnalyzedMsg) :
    _compute_weekly_sentimentE env msgs = some (_compute_weekly_sentiment env msgs) := by
  unfold _compute_weekly_sentimentE _compute_weekly_sentiment
  apply optMap_eq_some
  intro b hb
  have hne : b.2 ≠ [] :=
    weekBuckets_ne_nil env msgs b (stableSort_mem _ _ b hb)
  have hlen : ((b.2.length : ℕ) : ℚ) ≠ 0 :=
    Nat.cast_ne_zero.mpr (by simpa [List.length_pos] using hne)
  unfold weekStatE
  rw [cdiv_eq_some hlen]
  rfl

theorem addToBucket_count (buckets : List (String × List ℚ)) (k : String) (p : ℚ) :
    ((addToBucket buckets k p).map (fun b => b.2.length)).sum
      = ((buckets.map (fun b => b.2.length)).sum) + 1 := by
  induction buckets with
  | nil => simp [addToBucket]
  | cons c rest ih =>
    rcases c with ⟨k', ps⟩
    unfold addToBucket
    split_ifs with hk
    · simp only [List.map_cons, List.sum_cons, List.length_append, List.length_cons,
        List.length_nil]
      omega
    · simp only [List.map_cons, List.sum_cons, ih]
      omega

theorem weekBuckets_count (env : Env) :
    ∀ (msgs : List AnalyzedMsg) (acc : List (String × List ℚ)),
      ((msgs.foldl (fun acc m =>
          match env.parseWeek m.timestamp with
          | none => acc
          | some wk => addToBucket acc wk m.polarity) acc).map (fun b => b.2.length)).sum
        = ((acc.map (fun b => b.2.length)).sum)
          + (msgs.filter (fun m => (env.parseWeek m.timestamp).isSome)).length := by
  intro msgs
  induction msgs with
  | nil => intro acc; simp
  | cons m ms ih =>
    intro acc
    rw [List.foldl_cons]
    rcases hp : env.parseWeek m.timestamp with _ | wk
    · simp only [hp]
      rw [ih acc]
      simp [List.filter_cons, hp]
    · simp only [hp]
      rw [ih (addToBucket acc wk m.polarity), addToBucket_count]
      simp [List.filter_cons, hp]
      omega

/-- The weekly breakdown counts exactly the messages whose timestamp parses. -/
theorem weekly_count (env : Env) (msgs : List AnalyzedMsg) :
    ((_compute_weekly_sentiment env msgs).map WeekStat.message_count).sum
      = (msgs.filter (fun m => (env.parseWeek m.timestamp).isSome)).length := by
  unfold _compute_weekly_sentiment
  rw [List.map_map]
  have hperm := (stableSort_perm (fun a b => strLt a.1 b.1) (weekBuckets env msgs)).map
    (fun b : String × List ℚ => b.2.length)
  have hsum := hperm.sum_eq
  have hfun : (List.map (WeekStat.message_count ∘ fun b : String × List ℚ =>
      (⟨b.1, roundTo 3 (b.2.sum / (b.2.length : ℚ)), b.2.length⟩ : WeekStat))
        (stableSort (fun a b => strLt a.1 b.1) (weekBuckets env msgs)))
      = List.map (fun b : String × List ℚ => b.2.length)
        (stableSort (fun a b => strLt a.1 b.1) (weekBuckets env msgs)) := rfl
  rw [hfun, hsum]
  have hc := weekBuckets_count env msgs []
  simpa [weekBuckets] using hc

-- ─────────────────────────────────────────────────────────────────────────────
-- Checked variants of the engine operations
-- ─────────────────────────────────────────────────────────────────────────────

/-- `analyze_messages` with checked divisions. -/
def analyze_messagesE (env : Env) (messages : List Msg) : Option SentimentSummary :=
  if messages = [] then some ⟨[], 0, "stable", "neutral", none⟩
  else do
    let avg ← cdiv ((analyzedOf env messages).map AnalyzedMsg.polarity).sum
      ((analyzedOf env messages).length : ℚ)
    let trend ← trendOfE ((analyzedOf env messages).map AnalyzedMsg.polarity)
    let weekly ← _compute_weekly_sentimentE env (analyzedOf env messages)
    pure ⟨analyzedOf env messages, roundTo 3 avg, trend, _polarity_label (roundTo 3 avg),
      some ⟨(analyzedOf env messages).length,
        ((analyzedOf env messages).filter (fun m => decide (m.label = "positive"))).length,
        ((analyzedOf env messages).filter (fun m => decide (m.label = "neutral"))).length,
        ((analyzedOf env messages).filter (fun m => decide (m.label = "negative"))).length,
        weekly⟩⟩

theorem analyzedOf_length (env : Env) (messages : List Msg) :
    (analyzedOf env messages).length = messages.length := by
  unfold analyzedOf sortByTimestamp
  rw [(stableSort_perm _ _).length_eq, List.length_map]

theorem analyze_messagesE_eq (env : Env) (messages : List Msg) :
    analyze_messagesE env messages = some (analyze_messages env messages) := by
  unfold analyze_messagesE analyze_messages
  by_cases h : messages = []
  · rw [if_pos h, if_pos h]
  · rw [if_neg h, if_neg h]
    have hlen : ((analyzedOf env messages).length : ℚ) ≠ 0 := by
      rw [analyzedOf_length]
      exact Nat.cast_ne_zero.mpr (fun hh => h (List.length_eq_zero.mp hh))
    rw [cdiv_eq_some hlen, trendOfE_eq, weekly_sentimentE_eq]
    simp only [Option.bind_eq_bind, Option.some_bind]
    rfl

/-- `compute_assessment_score` with its guarded normalization division
checked. -/
def compute_assessment_scoreE (catalog : List Question) (answers : List (String × ℤ)) :
    Option ℚ :=
  if answers = [] then some 0
  else if (assessmentSums catalog answers).2 = 0 then some 0
  else do
    let raw ← cdiv (assessmentSums catalog answers).1 (assessmentSums catalog answers).2
    pure (roundTo 1 (((raw - 1) / 4) * 100))

theorem compute_assessment_scoreE_eq (catalog : List Question)
    (answers : List (String × ℤ)) :
    compute_assessment_scoreE catalog answers
      = some (compute_assessment_score catalog answers) := by
  unfold compute_assessment_scoreE compute_assessment_score
  split_ifs with h1 h2
  · rfl
  · rfl
  · rw [cdiv_eq_some h2]
    rfl

/-- `compute_work_pattern_score` with the five window means checked. -/
def compute_work_pattern_scoreE (work_logs : List WorkLog) : Option ℚ :=
  if work_logs = [] then some 50
  else do
    let adh ← cdiv ((recentLogs work_logs).map WorkLog.avg_daily_hours).sum
      ((recentLogs work_logs).length : ℚ)
    let wkh ← cdiv ((recentLogs work_logs).map WorkLog.weekend_hours).sum
      ((recentLogs work_logs).length : ℚ)
    let lns ← cdiv ((recentLogs work_logs).map WorkLog.late_night_sessions).sum
      ((recentLogs work_logs).length : ℚ)
    let brk ← cdiv ((recentLogs work_logs).map WorkLog.breaks_taken_per_day).sum
      ((recentLogs work_logs).length : ℚ)
    let pto ← cdiv ((recentLogs work_logs).map WorkLog.pto_balance_days).sum
      ((recentLogs work_logs).length : ℚ)
    pure (roundTo 1 (clamp100 ((adh - 8) / 6 * 100) * 0.30 + clamp100 (wkh / 6 * 100) * 0.20 +
      clamp100 (lns / 5 * 100) * 0.20 + clamp100 ((5 - brk) / 5 * 100) * 0.15 +
      clamp100 ((15 - pto) / 15 * 100) * 0.15))

theorem recentLogs_length_pos (work_logs : List WorkLog) (h : work_logs ≠ []) :
    0 < (recentLogs work_logs).length := by
  unfold recentLogs
  split_ifs with h4
  · rw [List.length_drop]; omega
  · exact List.length_pos.mpr h

theorem olderLogs_length_pos (work_logs : List WorkLog) (h : work_logs ≠ []) :
    0 < (olderLogs work_logs).length := by
  unfold olderLogs
  have hp := List.length_pos.mpr h
  split_ifs with h4
  · rw [List.length_take]; omega
  · rw [List.length_take]; omega

theorem compute_work_pattern_scoreE_eq (work_logs : List WorkLog) :
    compute_work_pattern_scoreE work_logs = some (compute_work_pattern_score work_logs) := by
  unfold compute_work_pattern_scoreE compute_work_pattern_score
  by_cases h : work_logs = []
  · rw [if_pos h, if_pos h]
  · rw [if_neg h, if_neg h]
    have hl : (((recentLogs work_logs).length : ℕ) : ℚ) ≠ 0 :=
      Nat.cast_ne_zero.mpr (Nat.pos_iff_ne_zero.mp (recentLogs_length_pos work_logs h))
    rw [cdiv_eq_some hl, cdiv_eq_some hl, cdiv_eq_some hl, cdiv_eq_some hl, cdiv_eq_some hl]
    rfl

/-- `compute_productivity_score` with every data-dependent division checked
(the completion-rate denominator is `max(recent_assigned, 1)` and the decline
denominator sits behind the `older_completion > 0` guard). -/
def compute_productivity_scoreE (work_logs : List WorkLog) : Option ℚ :=
  if work_logs.length < 2 then some 50
  else do
    let rc ← cdiv ((recentLogs work_logs).map WorkLog.tasks_completed).sum
      ((recentLogs work_logs).length : ℚ)
    let oc ← cdiv ((olderLogs work_logs).map WorkLog.tasks_completed).sum
      ((olderLogs work_logs).length : ℚ)
    let ra ← cdiv ((recentLogs work_logs).map WorkLog.tasks_assigned).sum
      ((recentLogs work_logs).length : ℚ)
    let crate ← cdiv rc (max ra 1)
    let dcl ← if 0 < oc then do
        let q ← cdiv (oc - rc) oc
        pure (q * 100)
      else pure 0
    pure (roundTo 1 (clamp100 ((100 - crate * 100) / 70 * 100) * 0.50 +
      clamp100 (dcl * 2) * 0.50))

theorem compute_productivity_scoreE_eq (work_logs : List WorkLog) :
    compute_productivity_scoreE work_logs = some (compute_productivity_score work_logs) := by
  unfold compute_productivity_scoreE compute_productivity_score completionRate declineOf
    recentCompletion olderCompletion recentAssigned wlMean
  by_cases h : work_logs.length < 2
  · rw [if_pos h, if_pos h]
  · rw [if_neg h, if_neg h]
    have hne : work_logs ≠ [] := by
      intro he
      rw [he] at h
      simp at h
    have hrl : (((recentLogs work_logs).length : ℕ) : ℚ) ≠ 0 :=
      Nat.cast_ne_zero.mpr (Nat.pos_iff_ne_zero.mp (recentLogs_length_pos work_logs hne))
    have hol : (((olderLogs work_logs).length : ℕ) : ℚ) ≠ 0 :=
      Nat.cast_ne_zero.mpr (Nat.pos_iff_ne_zero.mp (olderLogs_length_pos work_logs hne))
    rw [cdiv_eq_some hrl, cdiv_eq_some hol, cdiv_eq_some hrl]
    simp only [Option.bind_eq_bind, Option.some_bind]
    have hmax : max (((recentLogs work_logs).map WorkLog.tasks_assigned).sum
        / (((recentLogs work_logs).length : ℕ) : ℚ)) 1 ≠ 0 :=
      ne_of_gt (lt_of_lt_of_le one_pos (le_max_right _ _))
    rw [cdiv_eq_some hmax]
    simp only [Option.bind_eq_bind, Option.some_bind]
    split_ifs with hoc
    · rw [cdiv_eq_some (ne_of_gt hoc)]
      simp only [Option.bind_eq_bind, Option.some_bind]
      rfl
    · rfl

/-- `compute_sentiment_score` with its (max-guarded) ratio division checked. -/
def compute_sentiment_scoreE (sa : SentimentSummary) : Option ℚ :=
  if sa.messages = [] then some 50
  else
    match sa.stats with
    | none => some 50
    | some st => do
      let nr ← cdiv (st.negative_count : ℚ) (max (st.total_messages : ℚ) 1)
      pure (roundTo 1 (min 100 (max 0 (
        ((1 - sa.average_polarity) / 2) * 100 * 0.50 + nr * 100 * 0.30 +
        (50 + (if sa.trend = "declining" then (15 : ℚ)
               else if sa.trend = "improving" then -10 else 0)) * 0.20))))

theorem compute_sentiment_scoreE_eq (sa : SentimentSummary) :
    compute_sentiment_scoreE sa = some (compute_sentiment_score sa) := by
  unfold compute_sentiment_scoreE compute_sentiment_score
  by_cases h : sa.messages = []
  · rw [if_pos h, if_pos h]
  · rw [if_neg h, if_neg h]
    rcases hst : sa.stats with _ | st
    · rfl
    · dsimp only
      have hmax : max ((st.total_messages : ℕ) : ℚ) 1 ≠ 0 :=
        ne_of_gt (lt_of_lt_of_le one_pos (le_max_right _ _))
      rw [cdiv_eq_some hmax]
      simp only [Option.bind_eq_bind, Option.some_bind]
      rfl

/-- Check 1 with its two divisions (mean and variance) checked. -/
def fakingStep1E (a : Assessment) : Option (List FakeReason × ℚ) :=
  if a.response_times = [] then some ([], 0)
  else do
    let avg ← cdiv (a.response_times.map Prod.snd).sum
      ((a.response_times.map Prod.snd).length : ℚ)
    let v ← cdiv ((a.response_times.map Prod.snd).map (fun t => (t - avg) ^ 2)).sum
      ((a.response_times.map Prod.snd).length : ℚ)
    pure ((if avg < 3 then [FakeReason.fast avg] else []) ++
      (if 3 < (a.response_times.map Prod.snd).length ∧ v < 1
       then [FakeReason.uniform] else []),
      (if avg < 3 then (0.3 : ℚ) else 0) +
      (if 3 < (a.response_times.map Prod.snd).length ∧ v < 1 then (0.2 : ℚ) else 0))

theorem fakingStep1E_eq (a : Assessment) : fakingStep1E a = some (fakingStep1 a) := by
  unfold fakingStep1E fakingStep1 avgTime timesVariance
  by_cases h : a.response_times = []
  · rw [if_pos h, if_pos h]
  · rw [if_neg h, if_neg h]
    have hl0 : (a.response_times.map Prod.snd).length ≠ 0 := by
      simpa [List.length_eq_zero] using h
    have hl : (((a.response_times.map Prod.snd).length : ℕ) : ℚ) ≠ 0 :=
      Nat.cast_ne_zero.mpr hl0
    rw [cdiv_eq_some hl]
    simp only [Option.bind_eq_bind, Option.some_bind]
    rw [cdiv_eq_some hl]
    simp only [Option.bind_eq_bind, Option.some_bind]
    rfl

/-- Check 2 with its work-pattern computation checked. -/
def fakingStep2E (catalog : List Question) (a : Assessment) (work_logs : List WorkLog) :
    Option (List FakeReason × ℚ) :=
  if work_logs = [] then some ([], 0)
  else do
    let ws ← compute_work_pattern_scoreE work_logs
    let ascore ← compute_assessment_scoreE catalog a.answers
    pure (if 40 < |ws - ascore| ∧ ascore < ws
      then ([FakeReason.work_gap ascore ws], (0.3 : ℚ)) else ([], 0))

theorem fakingStep2E_eq (catalog : List Question) (a : Assessment)
    (work_logs : List WorkLog) :
    fakingStep2E catalog a work_logs = some (fakingStep2 catalog a work_logs) := by
  unfold fakingStep2E fakingStep2
  by_cases h : work_logs = []
  · rw [if_pos h, if_pos h]
  · rw [if_neg h, if_neg h, compute_work_pattern_scoreE_eq, compute_assessment_scoreE_eq]
    simp only [Option.bind_eq_bind, Option.some_bind]
    split_ifs <;> rfl

/-- Check 3 with its sentiment-score computation checked. -/
def fakingStep3E (catalog : List Question) (a : Assessment) (sa : SentimentSummary) :
    Option (List FakeReason × ℚ) :=
  if sa.messages = [] then some ([], 0)
  else do
    let ss ← compute_sentiment_scoreE sa
    let ascore ← compute_assessment_scoreE catalog a.answers
    pure (if 35 < |ss - ascore| ∧ ascore < ss
      then ([FakeReason.sentiment_gap ss ascore], (0.2 : ℚ)) else ([], 0))

theorem fakingStep3E_eq (catalog : List Question) (a : Assessment)
    (sa : SentimentSummary) :
    fakingStep3E catalog a sa = some (fakingStep3 catalog a sa) := by
  unfold fakingStep3E fakingStep3
  by_cases h : sa.messages = []
  · rw [if_pos h, if_pos h]
  · rw [if_neg h, if_neg h, compute_sentiment_scoreE_eq, compute_assessment_scoreE_eq]
    simp only [Option.bind_eq_bind, Option.some_bind]
    split_ifs <;> rfl

/-- `detect_faking` with every fallible sub-computation checked. -/
def detect_fakingE (catalog : List Question) (assessment : Option Assessment)
    (work_logs : List WorkLog) (sa : SentimentSummary) : Option FakingVerdict :=
  match assessment with
  | none => some ⟨false, 0, []⟩
  | some a => do
    let s1 ← fakingStep1E a
    let s2 ← fakingStep2E catalog a work_logs
    let s3 ← fakingStep3E catalog a sa
    pure ⟨decide ((0.3 : ℚ) ≤ s1.2 + s2.2 + s3.2 + (fakingStep4 a).2),
      roundTo 2 (min 1 (s1.2 + s2.2 + s3.2 + (fakingStep4 a).2)),
      s1.1 ++ s2.1 ++ s3.1 ++ (fakingStep4 a).1⟩

theorem detect_fakingE_eq (catalog : List Question) (assessment : Option Assessment)
    (work_logs : List WorkLog) (sa : SentimentSummary) :
    detect_fakingE catalog assessment work_logs sa
      = some (detect_faking catalog assessment work_logs sa) := by
  rcases assessment with _ | a
  · rfl
  · unfold detect_fakingE detect_faking suspicionScore fakingReasons
    dsimp only
    rw [fakingStep1E_eq, fakingStep2E_eq, fakingStep3E_eq]
    simp only [Option.bind_eq_bind, Option.some_bind]
    rfl

/-- `compute_burnout_score` with every fallible sub-computation checked,
including the per-assessment scores of the trend history. -/
def compute_burnout_scoreE (env : Env) (catalog : List Question) (employee_id : String)
    (assessments : List Assessment) (work_logs : List WorkLog) (messages : List Msg) :
    Option BurnoutResult :=
  match assessments.getLast? with
  | none => do
    let sa ← analyze_messagesE env messages
    pure ⟨employee_id, 0, 0, "low",
      ⟨⟨0, WEIGHTS "assessment"⟩, ⟨0, WEIGHTS "sentiment"⟩,
       ⟨0, WEIGHTS "work_pattern"⟩, ⟨0, WEIGHTS "productivity"⟩⟩,
      sa, ⟨false, 0, []⟩, [], none⟩
  | some latest => do
    let ascore ← compute_assessment_scoreE catalog latest.answers
    let sa ← analyze_messagesE env messages
    let sscore ← compute_sentiment_scoreE sa
    let wscore ← compute_work_pattern_scoreE work_logs
    let pscore ← compute_productivity_scoreE work_logs
    let faking ← detect_fakingE catalog (some latest) work_logs sa
    let trendList ← optMap (fun x => do
        let s ← compute_assessment_scoreE catalog x.answers
        pure (⟨x.timestamp, s⟩ : TrendEntry)) assessments
    let composite := roundTo 1 (min 100 (max 0 (
      ascore * WEIGHTS "assessment" + sscore * WEIGHTS "sentiment" +
      wscore * WEIGHTS "work_pattern" + pscore * WEIGHTS "productivity")))
    let adjusted := if faking.is_suspicious then
        roundTo 1 (max composite (sscore * 0.40 + wscore * 0.35 + pscore * 0.25))
      else composite
    pure ⟨employee_id, composite, adjusted, _get_risk_level adjusted,
      ⟨⟨ascore, WEIGHTS "assessment"⟩, ⟨sscore, WEIGHTS "sentiment"⟩,
       ⟨wscore, WEIGHTS "work_pattern"⟩, ⟨pscore, WEIGHTS "productivity"⟩⟩,
      sa, faking, trendList, some latest.timestamp⟩

theorem compute_burnout_scoreE_eq (env : Env) (catalog : List Question)
    (employee_id : String) (assessments : List Assessment) (work_logs : List WorkLog)
    (messages : List Msg) :
    compute_burnout_scoreE env catalog employee_id assessments work_logs messages
      = some (compute_burnout_score env catalog employee_id assessments work_logs
          messages) := by
  unfold compute_burnout_scoreE compute_burnout_score
  rcases hl : assessments.getLast? with _ | latest
  · simp only [hl]
    rw [analyze_messagesE_eq]
    simp only [Option.bind_eq_bind, Option.some_bind]
    rfl
  · simp only [hl]
    rw [compute_assessment_scoreE_eq, analyze_messagesE_eq]
    simp only [Option.bind_eq_bind, Option.some_bind]
    rw [compute_sentiment_scoreE_eq, compute_work_pattern_scoreE_eq,
      compute_productivity_scoreE_eq, detect_fakingE_eq]
    simp only [Option.bind_eq_bind, Option.some_bind]
    rw [optMap_eq_some _
      (fun x => (⟨x.timestamp, compute_assessment_score catalog x.answers⟩ : TrendEntry))
      assessments
      (fun x _ => by rw [compute_assessment_scoreE_eq]; rfl)]
    simp only [Option.bind_eq_bind, Option.some_bind]
    rfl

/-- Claim C8: no engine operation can raise — each checked variant (in which
every data-dependent division returns `none` on a zero denominator, modelling
a ZeroDivisionError) agrees with the total function on all inputs — and a
message with an unparseable timestamp is skipped by the weekly bucketing only,
while the totals and the average still count every message. -/
theorem c8_no_exceptions (env : Env) (catalog : List Question) (employee_id : String)
    (assessments : List Assessment) (work_logs : List WorkLog) (messages : List Msg)
    (a : Assessment) (sa : SentimentSummary) :
    analyze_messagesE env messages = some (analyze_messages env messages) ∧
    compute_assessment_scoreE catalog a.answers
      = some (compute_assessment_score catalog a.answers) ∧
    compute_work_pattern_scoreE work_logs = some (compute_work_pattern_score work_logs) ∧
    compute_productivity_scoreE work_logs = some (compute_productivity_score work_logs) ∧
    compute_sentiment_scoreE sa = some (compute_sentiment_score sa) ∧
    detect_fakingE catalog (some a) work_logs sa
      = some (detect_faking catalog (some a) work_logs sa) ∧
    compute_burnout_scoreE env catalog employee_id assessments work_logs messages
      = some (compute_burnout_score env catalog employee_id assessments work_logs
          messages) ∧
    ((_compute_weekly_sentiment env (analyzedOf env messages)).map
        WeekStat.message_count).sum
      = ((analyzedOf env messages).filter
          (fun m => (env.parseWeek m.timestamp).isSome)).length ∧
    (messages ≠ [] → ∃ st, (analyze_messages env messages).stats = some st ∧
      st.total_messages = messages.length ∧
      (analyze_messages env messages).average_polarity
        = roundTo 3 (((analyzedOf env messages).map AnalyzedMsg.polarity).sum
            / (messages.length : ℚ))) := by
  refine ⟨analyze_messagesE_eq env messages, compute_assessment_scoreE_eq catalog a.answers,
    compute_work_pattern_scoreE_eq work_logs, compute_productivity_scoreE_eq work_logs,
    compute_sentiment_scoreE_eq sa, detect_fakingE_eq catalog (some a) work_logs sa,
    compute_burnout_scoreE_eq env catalog employee_id assessments work_logs messages,
    weekly_count env (analyzedOf env messages), ?_⟩
  intro h
  refine ⟨⟨(analyzedOf env messages).length,
      ((analyzedOf env messages).filter (fun m => decide (m.label = "positive"))).length,
      ((analyzedOf env messages).filter (fun m => decide (m.label = "neutral"))).length,
      ((analyzedOf env messages).filter (fun m => decide (m.label = "negative"))).length,
      _compute_weekly_sentiment env (analyzedOf env messages)⟩, ?_, ?_, ?_⟩
  · unfold analyze_messages
    rw [if_neg h]
  · simp only [analyzedOf_length]
  · unfold analyze_messages
    rw [if_neg h]
    unfold avgPolarity
    rw [analyzedOf_length]

/-- Claim C8 witness: the totals-vs-weekly facts evaluated on a concrete
message list. -/
theorem c8_no_exceptions_w :
    ∃ st, (analyze_messages envC6 msgsC6).stats = some st ∧
      st.total_messages = msgsC6.length ∧
      (analyze_messages envC6 msgsC6).average_polarity
        = roundTo 3 (((analyzedOf envC6 msgsC6).map AnalyzedMsg.polarity).sum
            / (msgsC6.length : ℚ)) :=
  (c8_no_exceptions envC6 sampleCatalog "e1" [] [] msgsC6 assessC5
    saEmpty).2.2.2.2.2.2.2.2 (by simp [msgsC6])
